import Mathlib

/-!
# snap-packages-extension: the `snap_packages` table generator

A shallow embedding of `src/main.go` (`SnapPackagesColumns`, `SnapPackagesGenerate`)
and of the Go standard-library functions it calls on the command output
(`bufio.Scanner` with the default `bufio.ScanLines` split function,
`strings.TrimSpace`, `strings.Fields`, `unicode.IsSpace`).

Modelling conventions

* A Go `string` holding UTF-8 text is a `List Char` (its sequence of runes);
  `len` is its length in bytes, the sum of the encoded sizes of its runes.
  Byte sequences that are not valid UTF-8 are outside the model.
* A Go `error` value is a `GoError`; a nil error is `none`.
* A Go `map[string]string` is an association list with unique keys, in order of
  first insertion (`GoMap.set` is the assignment `m[k] = v`).
* `cmd.Output()` is the pair of its two results, which `SnapPackagesGenerate`
  takes as arguments: the captured standard output and the error.
* `lineCount` is a Go `int`; it counts scanned lines, each of which takes at
  least one byte of a string whose length is itself an `int`, so it cannot
  overflow and is a `Nat` here.
* The scanner is the one `bufio.NewScanner` returns: its buffer holds at most
  `bufio.MaxScanTokenSize` = 65536 bytes, so a line of 65536 bytes or more stops
  the scan with `bufio.ErrTooLong`; `strings.Reader` reports no other error.
-/

namespace SnapPackages

/-- A Go string holding UTF-8 text, as its sequence of runes. -/
abbrev GoString := List Char

/-- Go error values that `SnapPackagesGenerate` can return. -/
inductive GoError where
  /-- An error returned by `cmd.Output()`: the command could not be started or
  exited with a failure status. -/
  | exec (detail : String)
  /-- The error `bufio.ErrTooLong` ("bufio.Scanner: token too long"). -/
  | ErrTooLong
  deriving DecidableEq, Repr

/-! ## Go standard library -/

/-- Go `unicode.IsSpace`: in Latin-1 the characters tab, LF, VT, FF, CR, space,
U+0085 (NEL) and U+00A0 (NBSP); above Latin-1 the code points with the Unicode
White_Space property. -/
def IsSpace (r : Char) : Bool :=
  let n := r.toNat
  if n ≤ 0xFF then
    n == 0x09 || n == 0x0A || n == 0x0B || n == 0x0C || n == 0x0D || n == 0x20
      || n == 0x85 || n == 0xA0
  else
    n == 0x1680 || (0x2000 ≤ n && n ≤ 0x200A) || n == 0x2028 || n == 0x2029
      || n == 0x202F || n == 0x205F || n == 0x3000

/-- Go `utf8.RuneLen`: the number of bytes in the UTF-8 encoding of a rune. -/
def RuneLen (r : Char) : Nat :=
  let n := r.toNat
  if n < 0x80 then 1 else if n < 0x800 then 2 else if n < 0x10000 then 3 else 4

/-- Go `len(s)`: the length of a string in bytes. -/
def len : GoString → Nat
  | [] => 0
  | r :: s => RuneLen r + len s

/-- Go `strings.TrimSpace`: the string without its leading and trailing white
space, as defined by `unicode.IsSpace`. -/
def TrimSpace (s : GoString) : GoString :=
  ((s.dropWhile IsSpace).reverse.dropWhile IsSpace).reverse

/-- The loop of Go `strings.FieldsFunc(s, unicode.IsSpace)`, to which
`strings.Fields` is equal: `start` is the open span (`none` is the source's
`start < 0`), held as the runes read since the span began, latest first. -/
def fieldsLoop : Option GoString → GoString → List GoString
  | none, [] => []
  | some span, [] => [span.reverse]
  | none, r :: s => if IsSpace r then fieldsLoop none s else fieldsLoop (some [r]) s
  | some span, r :: s =>
    if IsSpace r then span.reverse :: fieldsLoop none s else fieldsLoop (some (r :: span)) s

/-- Go `strings.Fields`: the maximal runs of non-white-space runes of `s`, in
order; empty when `s` holds only white space. -/
def Fields (s : GoString) : List GoString :=
  fieldsLoop none s

/-- The `dropCR` helper of Go `bufio`: drops one trailing carriage return. -/
def dropCR (data : GoString) : GoString :=
  if data.getLast? = some '\r' then data.dropLast else data

/-- Go `bufio.MaxScanTokenSize`, the default size limit of a scanner's buffer. -/
def MaxScanTokenSize : Nat := 64 * 1024

/-- The lines that `bufio.ScanLines` cuts a text into, before the carriage
return is dropped: the pieces between newlines, the last one present only when
it is not empty ("the last non-empty line of input will be returned even if it
has no newline"). -/
def rawLines : GoString → List GoString
  | [] => []
  | r :: s =>
    if r = '\n' then [] :: rawLines s
    else
      match rawLines s with
      | [] => [[r]]
      | l :: ls => (r :: l) :: ls

/-! ## Go maps -/

/-- A Go `map[string]string`: the keys are unique. -/
abbrev GoMap := List (String × GoString)

/-- The assignment `m[k] = v`. -/
def GoMap.set : GoMap → String → GoString → GoMap
  | [], k, v => [(k, v)]
  | (k', v') :: m, k, v => if k' = k then (k, v) :: m else (k', v') :: GoMap.set m k v

/-- The lookup `v, ok := m[k]`. -/
def GoMap.get? : GoMap → String → Option GoString
  | [], _ => none
  | (k', v') :: m, k => if k' = k then some v' else GoMap.get? m k

/-- The keys of a map. -/
def GoMap.keys (m : GoMap) : List String :=
  m.map Prod.fst

/-! ## `src/main.go` -/

/-- The column types of `osquery-go`'s `table` package. -/
inductive ColumnType where
  | Text
  | Integer
  | BigInt
  | Double
  deriving DecidableEq, Repr

/-- A column of a table, `table.ColumnDefinition`. -/
structure ColumnDefinition where
  Name : String
  /-- The field `Type` of the source (a reserved word here). -/
  Type_ : ColumnType
  deriving DecidableEq, Repr

/-- The helper `table.TextColumn` of `osquery-go`: a column of type text. -/
def TextColumn (name : String) : ColumnDefinition :=
  { Name := name, Type_ := ColumnType.Text }

/-- `SnapPackagesColumns` (main.go 38-47). -/
def SnapPackagesColumns : List ColumnDefinition :=
  [ TextColumn "name",
    TextColumn "version",
    TextColumn "rev",
    TextColumn "tracking",
    TextColumn "publisher",
    TextColumn "notes" ]

/-- The variables of `SnapPackagesGenerate` that its loop updates. -/
structure LoopState where
  lineCount : Nat
  results : List GoMap
  deriving DecidableEq, Repr

/-- The row made from the fields of a line (main.go 85-97); `h` is the guard
`len(fields) < 5` of line 80 having failed. -/
def makeRow (fields : List GoString) (h : ¬ fields.length < 5) : GoMap :=
  let row : GoMap := []
  let row := row.set "name" fields[0]
  let row := row.set "version" fields[1]
  let row := row.set "rev" fields[2]
  let row := row.set "tracking" fields[3]
  let row := row.set "publisher" fields[4]
  if h5 : fields.length > 5 then
    row.set "notes" fields[5]
  else
    row.set "notes" []

/-- One iteration of the loop of `SnapPackagesGenerate` (main.go 65-99), on the
text `text` of the token that `scanner.Scan()` delivered. -/
def loopBody (st : LoopState) (text : GoString) : LoopState :=
  let line := TrimSpace text
  let lineCount := st.lineCount + 1
  if lineCount ≤ 2 then
    { lineCount := lineCount, results := st.results }
  else if line = [] then
    { lineCount := lineCount, results := st.results }
  else
    let fields := Fields line
    if h : fields.length < 5 then
      { lineCount := lineCount, results := st.results }
    else
      { lineCount := lineCount, results := st.results ++ [makeRow fields h] }

/-- The loop `for scanner.Scan() { ... }` (main.go 64-100) of a scanner with the
default buffer over the remaining lines of the input, and the value of
`scanner.Err()` after it. A line of `MaxScanTokenSize` bytes or more, newline
not counted, does not fit in the buffer together with its newline (nor alone
when it is the last one, as the scanner finds the buffer full before it finds
the end of the input): `Scan` returns false there and the error is
`ErrTooLong`. Any other line is delivered without its trailing carriage
return; at the end of the input `Scan` returns false with no error. -/
def scanLoop : List GoString → LoopState → LoopState × Option GoError
  | [], st => (st, none)
  | raw :: rest, st =>
    if MaxScanTokenSize ≤ len raw then (st, some GoError.ErrTooLong)
    else scanLoop rest (loopBody st (dropCR raw))

/-- `SnapPackagesGenerate` (main.go 50-103), as a function of the two results
`output, err` of `cmd.Output()`. -/
def SnapPackagesGenerate (output : GoString) (err : Option GoError) :
    List GoMap × Option GoError :=
  let results : List GoMap := []
  match err with
  | some e => (results, some e)
  | none =>
    let st : LoopState := { lineCount := 0, results := results }
    let (st, scanErr) := scanLoop (rawLines output) st
    (st.results, scanErr)

/-! ## Texts made of lines -/

/-- The text made of the given lines, each one ended by a newline. -/
def joinLines : List GoString → GoString
  | [] => []
  | l :: ls => l ++ '\n' :: joinLines ls

/-- The text made of the given lines with a newline between them and none at
the end. -/
def joinLinesOpen : List GoString → GoString
  | [] => []
  | [l] => l
  | l :: l' :: ls => l ++ '\n' :: joinLinesOpen (l' :: ls)

/-- The text made of the given lines, with or without a newline after the last
one. -/
def textOfLines (ls : List GoString) (finalNewline : Bool) : GoString :=
  if finalNewline then joinLines ls else joinLinesOpen ls

/-! ## Views of the loop used in the proofs -/

/-- The rows that a data line with the given fields adds (main.go 80-99). -/
def rowsOfFields (fields : List GoString) : List GoMap :=
  if h : fields.length < 5 then [] else [makeRow fields h]

/-- The rows and the error of the loop over lines that are all past the first
two. -/
def dataRows : List GoString → List GoMap × Option GoError
  | [] => ([], none)
  | raw :: rest =>
    if MaxScanTokenSize ≤ len raw then ([], some GoError.ErrTooLong)
    else (rowsOfFields (Fields raw) ++ (dataRows rest).1, (dataRows rest).2)

/-- The result of `SnapPackagesGenerate` from the lines of the output: nothing
comes from the first two lines but the error of one that is too long. -/
def genOfLines : List GoString → List GoMap × Option GoError
  | [] => ([], none)
  | p1 :: rest =>
    if MaxScanTokenSize ≤ len p1 then ([], some GoError.ErrTooLong)
    else
      match rest with
      | [] => ([], none)
      | p2 :: ds =>
        if MaxScanTokenSize ≤ len p2 then ([], some GoError.ErrTooLong)
        else dataRows ds

/-! ## Concrete inputs -/

/-- A line of 65536 bytes, the smallest that the scanner cannot hold: 65536
times the letter x. -/
def tooLongLine : GoString :=
  List.replicate 65536 'x'

/-- A line of 65536 bytes that is empty after trimming: 65536 spaces. -/
def tooLongBlankLine : GoString :=
  List.replicate 65536 ' '

/-- The row with the given six values, as the loop builds it. -/
def rowOfStrings (name version rev tracking publisher notes : String) : GoMap :=
  [("name", name.toList), ("version", version.toList), ("rev", rev.toList),
    ("tracking", tracking.toList), ("publisher", publisher.toList), ("notes", notes.toList)]

/-- The lines of the scenario input of the specification. -/
def scenarioLines : List GoString :=
  [ "Name  Version  Rev  Tracking  Publisher  Notes".toList,
    "----  -------  ---  --------  ---------  -----".toList,
    "core20  20230101  1234  latest/stable  canonical**  base".toList,
    "hello   2.10      50    latest/stable  canonical    -".toList ]

/-! ## `main`: the socket path -/

/-- The loop of `main` over `os.Args` (main.go 16-21), at index `i` with the
arguments from `i` on still to visit; `socketPath` is the variable of that name.
The first argument equal to `-socket` or `--socket` with `i+1 < len(os.Args)`
assigns `os.Args[i+1]` and breaks out of the loop. -/
def socketPathLoop (Args : List GoString) : Nat → List GoString → GoString → GoString
  | _, [], socketPath => socketPath
  | i, arg :: rest, socketPath =>
    if h : (arg = "-socket".toList ∨ arg = "--socket".toList) ∧ i + 1 < Args.length then
      Args[i + 1]
    else
      socketPathLoop Args (i + 1) rest socketPath

/-- The value of `socketPath` in `main` after the loop (main.go 15-21), from
`os.Args`. -/
def socketPath (Args : List GoString) : GoString :=
  socketPathLoop Args 0 Args ":0".toList

/-! ## The parser without the trimming and without the empty-line test -/

/-- The loop body of `SnapPackagesGenerate` with `strings.TrimSpace` and the
skip `line == ""` taken out: the first-two-lines skip, `strings.Fields` and the
fewer-than-5-fields skip remain. -/
def loopBodyNoTrim (st : LoopState) (text : GoString) : LoopState :=
  let line := text
  let lineCount := st.lineCount + 1
  if lineCount ≤ 2 then
    { lineCount := lineCount, results := st.results }
  else
    let fields := Fields line
    if h : fields.length < 5 then
      { lineCount := lineCount, results := st.results }
    else
      { lineCount := lineCount, results := st.results ++ [makeRow fields h] }

/-- The scanning loop with `loopBodyNoTrim` as its body. -/
def scanLoopNoTrim : List GoString → LoopState → LoopState × Option GoError
  | [], st => (st, none)
  | raw :: rest, st =>
    if MaxScanTokenSize ≤ len raw then (st, some GoError.ErrTooLong)
    else scanLoopNoTrim rest (loopBodyNoTrim st (dropCR raw))

/-- The function `SnapPackagesGenerate` with `loopBodyNoTrim` as the body of
its loop. -/
def SnapPackagesGenerateNoTrim (output : GoString) (err : Option GoError) :
    List GoMap × Option GoError :=
  let results : List GoMap := []
  match err with
  | some e => (results, some e)
  | none =>
    let st : LoopState := { lineCount := 0, results := results }
    let (st, scanErr) := scanLoopNoTrim (rawLines output) st
    (st.results, scanErr)

/-! ## White space, fields and trimming -/

theorem fieldsLoop_concat_space (c : Char) (hc : IsSpace c = true) (s : GoString) :
    ∀ o : Option GoString, fieldsLoop o (s ++ [c]) = fieldsLoop o s := by
  induction s with
  | nil =>
    intro o
    cases o <;> simp [fieldsLoop, hc]
  | cons r s ih =>
    intro o
    cases o <;> by_cases hr : IsSpace r = true <;> simp [fieldsLoop, hr, ih]

theorem Fields_concat_space (c : Char) (hc : IsSpace c = true) (s : GoString) :
    Fields (s ++ [c]) = Fields s :=
  fieldsLoop_concat_space c hc s none

theorem Fields_dropWhile (s : GoString) : Fields (s.dropWhile IsSpace) = Fields s := by
  induction s with
  | nil => rfl
  | cons r s ih =>
    by_cases hr : IsSpace r = true
    · simp [List.dropWhile, hr, ih, Fields, fieldsLoop] at *
      exact ih
    · simp [List.dropWhile, hr]

theorem Fields_rdropWhile (s : GoString) :
    Fields (s.reverse.dropWhile IsSpace).reverse = Fields s := by
  induction s using List.reverseRecOn with
  | nil => rfl
  | append_singleton s c ih =>
    by_cases hc : IsSpace c = true
    · simp [List.dropWhile, hc, Fields_concat_space, ih]
    · simp [List.dropWhile, hc]

theorem Fields_TrimSpace (s : GoString) : Fields (TrimSpace s) = Fields s := by
  unfold TrimSpace
  rw [Fields_rdropWhile, Fields_dropWhile]

theorem Fields_dropCR (s : GoString) : Fields (dropCR s) = Fields s := by
  unfold dropCR
  split
  · rename_i h
    induction s using List.reverseRecOn with
    | nil => simp at h
    | append_singleton s c _ =>
      simp at h
      subst h
      simp [Fields_concat_space]
      rw [Fields_concat_space]
      decide
  · rfl

theorem TrimSpace_ne_nil (s : GoString) (h : Fields s ≠ []) : TrimSpace s ≠ [] := by
  intro h0
  apply h
  rw [← Fields_TrimSpace, h0]
  rfl

/-! ## The loop body -/

theorem loopBody_preamble (st : LoopState) (text : GoString) (h : st.lineCount < 2) :
    loopBody st text = { lineCount := st.lineCount + 1, results := st.results } := by
  unfold loopBody
  have : st.lineCount + 1 ≤ 2 := by omega
  simp [this]

theorem loopBody_data (st : LoopState) (text : GoString) (h : 2 ≤ st.lineCount) :
    loopBody st text =
      { lineCount := st.lineCount + 1, results := st.results ++ rowsOfFields (Fields text) } := by
  unfold loopBody rowsOfFields
  have h2 : ¬ st.lineCount + 1 ≤ 2 := by omega
  simp only [h2, if_false, Fields_TrimSpace]
  by_cases h5 : (Fields text).length < 5
  · simp [h5]
  · have hne : TrimSpace text ≠ [] := by
      apply TrimSpace_ne_nil
      intro h0
      rw [h0] at h5
      simp at h5
    simp [h5, hne]

/-! ## The scanning loop -/

theorem scanLoop_data (raws : List GoString) :
    ∀ st : LoopState, 2 ≤ st.lineCount →
      (scanLoop raws st).1.results = st.results ++ (dataRows raws).1 ∧
      (scanLoop raws st).2 = (dataRows raws).2 := by
  induction raws with
  | nil => intro st _; simp [scanLoop, dataRows]
  | cons raw rest ih =>
    intro st h
    by_cases hl : MaxScanTokenSize ≤ len raw
    · simp [scanLoop, dataRows, hl]
    · have := ih (loopBody st (dropCR raw)) (by rw [loopBody_data st _ h]; simp; omega)
      simp only [scanLoop, dataRows, hl, if_false, this]
      rw [loopBody_data st _ h, Fields_dropCR]
      simp

theorem SnapPackagesGenerate_eq (output : GoString) :
    SnapPackagesGenerate output none = genOfLines (rawLines output) := by
  unfold SnapPackagesGenerate
  simp only
  cases rawLines output with
  | nil => simp [scanLoop, genOfLines]
  | cons p1 rest =>
    by_cases h1 : MaxScanTokenSize ≤ len p1
    · simp [scanLoop, genOfLines, h1]
    · cases rest with
      | nil => simp [scanLoop, genOfLines, h1, loopBody_preamble]
      | cons p2 ds =>
        by_cases h2 : MaxScanTokenSize ≤ len p2
        · simp [scanLoop, genOfLines, h1, h2, loopBody_preamble]
        · have := scanLoop_data ds
            (loopBody (loopBody { lineCount := 0, results := [] } (dropCR p1)) (dropCR p2))
            (by simp [loopBody_preamble])
          simp only [scanLoop, genOfLines, h1, h2, if_false]
          rw [Prod.ext_iff]
          simp only [this]
          simp [loopBody_preamble]

/-! ## Lines of a text -/

theorem rawLines_line (l : GoString) (h : '\n' ∉ l) (rest : GoString) :
    rawLines (l ++ '\n' :: rest) = l :: rawLines rest := by
  induction l with
  | nil => simp [rawLines]
  | cons r l ih =>
    simp at h
    have hr : r ≠ '\n' := fun h0 => h.1 h0.symm
    simp [rawLines, hr, ih h.2]

theorem rawLines_last (l : GoString) (h : '\n' ∉ l) (hne : l ≠ []) :
    rawLines l = [l] := by
  induction l with
  | nil => exact absurd rfl hne
  | cons r l ih =>
    simp at h
    have hr : r ≠ '\n' := fun h0 => h.1 h0.symm
    cases l with
    | nil => simp [rawLines, hr]
    | cons r' l' =>
      have := ih (by simpa using h.2) (by simp)
      rw [rawLines, if_neg hr, this]

theorem rawLines_joinLines (ls : List GoString) (h : ∀ l ∈ ls, '\n' ∉ l) (rest : GoString) :
    rawLines (joinLines ls ++ rest) = ls ++ rawLines rest := by
  induction ls with
  | nil => simp [joinLines]
  | cons l ls ih =>
    have h1 := h l (by simp)
    have h2 : ∀ l ∈ ls, '\n' ∉ l := fun x hx => h x (by simp [hx])
    simp only [joinLines, List.append_assoc, List.cons_append]
    rw [rawLines_line l h1, ih h2]


theorem rawLines_joinLinesOpen (ls : List GoString) (h : ∀ l ∈ ls, '\n' ∉ l)
    (hlast : ∀ l, ls.getLast? = some l → l ≠ []) :
    rawLines (joinLinesOpen ls) = ls := by
  induction ls with
  | nil => rfl
  | cons l ls ih =>
    cases ls with
    | nil =>
      exact rawLines_last l (h l (by simp)) (hlast l (by simp))
    | cons l' ls' =>
      have h2 : ∀ x ∈ l' :: ls', '\n' ∉ x := fun x hx => h x (List.mem_cons_of_mem _ hx)
      have hl : ∀ x, (l' :: ls').getLast? = some x → x ≠ [] := by
        intro x hx
        apply hlast
        rw [List.getLast?_cons_cons]
        exact hx
      rw [joinLinesOpen, rawLines_line l (h l (by simp)), ih h2 hl]

theorem rawLines_textOfLines (ls : List GoString) (finalNewline : Bool)
    (h : ∀ l ∈ ls, '\n' ∉ l)
    (hlast : finalNewline = false → ∀ l, ls.getLast? = some l → l ≠ []) :
    rawLines (textOfLines ls finalNewline) = ls := by
  unfold textOfLines
  cases finalNewline with
  | true =>
    have := rawLines_joinLines ls h []
    simpa [rawLines] using this
  | false =>
    simpa using rawLines_joinLinesOpen ls h (hlast rfl)

/-! ## Byte lengths -/

theorem len_append (s t : GoString) : len (s ++ t) = len s + len t := by
  induction s with
  | nil => simp [len]
  | cons r s ih => simp [len, ih, Nat.add_assoc]

theorem len_replicate (n : Nat) (r : Char) : len (List.replicate n r) = n * RuneLen r := by
  induction n with
  | zero => simp [len]
  | succ n ih => simp [List.replicate_succ, len, ih, Nat.succ_mul, Nat.add_comm]

theorem len_tooLongLine : MaxScanTokenSize ≤ len tooLongLine := by
  unfold tooLongLine
  rw [len_replicate]
  decide

theorem newline_not_mem_tooLongLine : '\n' ∉ tooLongLine := by
  unfold tooLongLine
  intro h
  have := List.eq_of_mem_replicate h
  revert this
  decide

/-! ## Rows -/

theorem rowsOfFields_get (fields : List GoString) (row : GoMap)
    (h : rowsOfFields fields = [row]) :
    row.get? "name" = fields[0]? ∧ row.get? "version" = fields[1]? ∧
    row.get? "rev" = fields[2]? ∧ row.get? "tracking" = fields[3]? ∧
    row.get? "publisher" = fields[4]? ∧
    row.get? "notes" = some (fields.getD 5 []) ∧
    row.keys = ["name", "version", "rev", "tracking", "publisher", "notes"] := by
  unfold rowsOfFields at h
  split at h
  · simp at h
  · rename_i h5
    simp at h
    subst h
    unfold makeRow
    split <;> simp [GoMap.set, GoMap.get?, GoMap.keys, List.getD]
    · rename_i h6
      rw [List.getElem?_eq_getElem h6]
      rfl
    · rename_i h6
      rw [List.getElem?_eq_none (by omega)]
      rfl

theorem rowsOfFields_length (fields : List GoString) (h : 5 ≤ fields.length) :
    ∃ row, rowsOfFields fields = [row] := by
  unfold rowsOfFields
  have : ¬ fields.length < 5 := by omega
  simp [this]

theorem dataRows_wellformed (ds : List GoString)
    (hlen : ∀ d ∈ ds, len d < MaxScanTokenSize)
    (h5 : ∀ d ∈ ds, 5 ≤ (Fields d).length) :
    ∃ rows : List GoMap, dataRows ds = (rows, none) ∧ rows.length = ds.length ∧
      ∀ (i : Nat) (d : GoString), ds[i]? = some d →
        ∃ row, rows[i]? = some row ∧ rowsOfFields (Fields d) = [row] := by
  induction ds with
  | nil => exact ⟨[], rfl, rfl, by simp⟩
  | cons d ds ih =>
    obtain ⟨rows, hrows, hl, hi⟩ := ih (fun x hx => hlen x (List.mem_cons_of_mem _ hx))
      (fun x hx => h5 x (List.mem_cons_of_mem _ hx))
    obtain ⟨row, hrow⟩ := rowsOfFields_length (Fields d) (h5 d (by simp))
    have hd : ¬ MaxScanTokenSize ≤ len d := by
      have := hlen d (by simp)
      omega
    refine ⟨row :: rows, ?_, by simp [hl], ?_⟩
    · simp [dataRows, hd, hrow, hrows]
    · intro i x hx
      cases i with
      | zero =>
        simp at hx
        subst hx
        exact ⟨row, by simp, hrow⟩
      | succ i =>
        simp at hx
        simpa using hi i x hx

/-! ## A newline at the end of the output -/

theorem rawLines_append_newline (s : GoString) :
    rawLines (s ++ ['\n']) = rawLines s ++ [[]] ∨ rawLines (s ++ ['\n']) = rawLines s := by
  induction s with
  | nil => left; simp [rawLines]
  | cons r s ih =>
    by_cases hr : r = '\n'
    · rcases ih with h | h
      · left; simp [rawLines, hr, h]
      · right; simp [rawLines, hr, h]
    · have e1 : rawLines (r :: s ++ ['\n']) =
          (match rawLines (s ++ ['\n']) with
            | [] => [[r]]
            | l :: ls => (r :: l) :: ls) := by
        simp [rawLines, hr]
      have e2 : rawLines (r :: s) =
          (match rawLines s with
            | [] => [[r]]
            | l :: ls => (r :: l) :: ls) := by
        simp [rawLines, hr]
      rw [e1, e2]
      rcases ih with h | h
      · rw [h]
        cases rawLines s with
        | nil => right; rfl
        | cons l ls => left; rfl
      · right; rw [h]

theorem len_nil_lt : ¬ MaxScanTokenSize ≤ len [] := by
  decide

theorem dataRows_append_empty (ls : List GoString) : dataRows (ls ++ [[]]) = dataRows ls := by
  induction ls with
  | nil => simp [dataRows, len_nil_lt, rowsOfFields, Fields, fieldsLoop]
  | cons l ls ih => simp [dataRows, ih]

theorem genOfLines_append_empty (ls : List GoString) :
    genOfLines (ls ++ [[]]) = genOfLines ls := by
  cases ls with
  | nil => simp [genOfLines, len_nil_lt]
  | cons p1 rest =>
    cases rest with
    | nil => simp [genOfLines, len_nil_lt, dataRows]
    | cons p2 ds => simp [genOfLines, dataRows_append_empty]

theorem SnapPackagesGenerate_err (output : GoString) (e : GoError) :
    SnapPackagesGenerate output (some e) = ([], some e) :=
  rfl

theorem SnapPackagesGenerate_append_newline (s : GoString) (err : Option GoError) :
    SnapPackagesGenerate (s ++ ['\n']) err = SnapPackagesGenerate s err := by
  cases err with
  | some e => rfl
  | none =>
    rw [SnapPackagesGenerate_eq, SnapPackagesGenerate_eq]
    rcases rawLines_append_newline s with h | h
    · rw [h, genOfLines_append_empty]
    · rw [h]

theorem joinLines_append (xs ys : List GoString) :
    joinLines (xs ++ ys) = joinLines xs ++ joinLines ys := by
  induction xs with
  | nil => rfl
  | cons x xs ih => simp [joinLines, ih]

theorem joinLines_eq_open (ls : List GoString) (h : ls ≠ []) :
    joinLines ls = joinLinesOpen ls ++ ['\n'] := by
  induction ls with
  | nil => exact absurd rfl h
  | cons l ls ih =>
    cases ls with
    | nil => simp [joinLines, joinLinesOpen]
    | cons l' ls' =>
      rw [joinLines, joinLinesOpen, ih (by simp)]
      simp

theorem SnapPackagesGenerate_textOfLines (ls : List GoString) (finalNewline : Bool)
    (err : Option GoError) :
    SnapPackagesGenerate (textOfLines ls finalNewline) err =
      SnapPackagesGenerate (joinLines ls) err := by
  cases finalNewline with
  | true => rfl
  | false =>
    cases ls with
    | nil => rfl
    | cons l ls =>
      rw [joinLines_eq_open (l :: ls) (by simp), SnapPackagesGenerate_append_newline]
      rfl

/-! ## Rows of the data lines -/

theorem dataRows_within (ds : List GoString) (hlen : ∀ d ∈ ds, len d < MaxScanTokenSize) :
    dataRows ds = (ds.flatMap (fun d => rowsOfFields (Fields d)), none) := by
  induction ds with
  | nil => rfl
  | cons d ds ih =>
    have hd : ¬ MaxScanTokenSize ≤ len d := by
      have := hlen d (by simp)
      omega
    simp [dataRows, hd, ih (fun x hx => hlen x (List.mem_cons_of_mem _ hx))]

theorem dataRows_insert (pre : List GoString) (l : GoString) (rest : List GoString)
    (hlen : len l < MaxScanTokenSize) (hf : (Fields l).length < 5) :
    dataRows (pre ++ l :: rest) = dataRows (pre ++ rest) := by
  induction pre with
  | nil =>
    have hd : ¬ MaxScanTokenSize ≤ len l := by omega
    simp [dataRows, hd, rowsOfFields, hf]
  | cons p pre ih => simp [dataRows, ih]

theorem genOfLines_insert (pre : List GoString) (l : GoString) (rest : List GoString)
    (h2 : 2 ≤ pre.length) (hlen : len l < MaxScanTokenSize) (hf : (Fields l).length < 5) :
    genOfLines (pre ++ l :: rest) = genOfLines (pre ++ rest) := by
  match pre, h2 with
  | p1 :: p2 :: pre', _ =>
    simp [genOfLines, dataRows_insert pre' l rest hlen hf]

theorem SnapPackagesGenerate_insert (pre : List GoString) (l rest : GoString)
    (err : Option GoError) (hpre : ∀ x ∈ pre, '\n' ∉ x) (h2 : 2 ≤ pre.length)
    (hl : '\n' ∉ l) (hlen : len l < MaxScanTokenSize) (hf : (Fields l).length < 5) :
    SnapPackagesGenerate (joinLines pre ++ joinLines [l] ++ rest) err =
      SnapPackagesGenerate (joinLines pre ++ rest) err := by
  cases err with
  | some e => rfl
  | none =>
    rw [SnapPackagesGenerate_eq, SnapPackagesGenerate_eq, List.append_assoc,
      rawLines_joinLines pre hpre, rawLines_joinLines pre hpre]
    have : joinLines [l] ++ rest = l ++ '\n' :: rest := by simp [joinLines]
    rw [this, rawLines_line l hl, genOfLines_insert pre l _ h2 hlen hf]

theorem fieldsLoop_no_space (s : GoString) (h : ∀ c ∈ s, IsSpace c = false) :
    ∀ o : Option GoString, (fieldsLoop o s).length ≤ 1 := by
  induction s with
  | nil => intro o; cases o <;> simp [fieldsLoop]
  | cons r s ih =>
    intro o
    have hr : IsSpace r = false := h r (by simp)
    have hs : ∀ c ∈ s, IsSpace c = false := fun c hc => h c (List.mem_cons_of_mem _ hc)
    cases o <;> simp [fieldsLoop, hr, ih hs]

theorem Fields_tooLongLine : (Fields tooLongLine).length < 5 := by
  have : ∀ c ∈ tooLongLine, IsSpace c = false := by
    intro c hc
    rw [List.eq_of_mem_replicate hc]
    decide
  have := fieldsLoop_no_space tooLongLine this none
  unfold Fields
  omega

theorem rawLines_joinLines_all (ls : List GoString) (h : ∀ l ∈ ls, '\n' ∉ l) :
    rawLines (joinLines ls) = ls := by
  have := rawLines_joinLines ls h []
  simpa [rawLines] using this

theorem SnapPackagesGenerate_single (d : GoString) (hd : '\n' ∉ d)
    (hlen : len d < MaxScanTokenSize) :
    SnapPackagesGenerate (joinLines [[], [], d]) none = (rowsOfFields (Fields d), none) := by
  have hl : ¬ MaxScanTokenSize ≤ len d := by omega
  rw [SnapPackagesGenerate_eq, rawLines_joinLines_all _ (by simpa using hd)]
  simp [genOfLines, len_nil_lt, dataRows, hl]

theorem SnapPackagesGenerate_lines (p1 p2 : GoString) (ds : List GoString)
    (hnl : ∀ l ∈ p1 :: p2 :: ds, '\n' ∉ l)
    (h1 : len p1 < MaxScanTokenSize) (h2 : len p2 < MaxScanTokenSize) :
    SnapPackagesGenerate (joinLines (p1 :: p2 :: ds)) none = dataRows ds := by
  have hl1 : ¬ MaxScanTokenSize ≤ len p1 := by omega
  have hl2 : ¬ MaxScanTokenSize ≤ len p2 := by omega
  rw [SnapPackagesGenerate_eq, rawLines_joinLines_all _ hnl]
  simp [genOfLines, hl1, hl2]

/-! ## The row of a line, field by field -/

theorem rowsOfFields_eq (fields : List GoString) :
    rowsOfFields fields =
      if fields.length < 5 then []
      else [[("name", fields.getD 0 []), ("version", fields.getD 1 []),
        ("rev", fields.getD 2 []), ("tracking", fields.getD 3 []),
        ("publisher", fields.getD 4 []), ("notes", fields.getD 5 [])]] := by
  unfold rowsOfFields
  by_cases h : fields.length < 5
  · simp [h]
  · simp only [h, dite_false, if_false]
    unfold makeRow
    have e : ∀ (i : Nat) (hi : i < fields.length), fields.getD i [] = fields[i] := by
      intro i hi
      simp [List.getD, List.getElem?_eq_getElem hi]
    rw [e 0 (by omega), e 1 (by omega), e 2 (by omega), e 3 (by omega), e 4 (by omega)]
    by_cases h6 : fields.length > 5
    · rw [e 5 h6]
      simp [h6, GoMap.set]
    · have h0 : fields.getD 5 [] = [] := by
        simp [List.getD, List.getElem?_eq_none (show fields.length ≤ 5 by omega)]
      rw [h0]
      simp [h6, GoMap.set]

theorem rowsOfFields_take (fields : List GoString) :
    rowsOfFields (fields.take 6) = rowsOfFields fields := by
  have e : ∀ i : Nat, i < 6 → (fields.take 6).getD i [] = fields.getD i [] := by
    intro i hi
    simp [List.getD, List.getElem?_take, hi]
  have hl : (fields.take 6).length < 5 ↔ fields.length < 5 := by
    simp [List.length_take]
  rw [rowsOfFields_eq, rowsOfFields_eq]
  simp only [hl, e 0 (by omega), e 1 (by omega), e 2 (by omega), e 3 (by omega),
    e 4 (by omega), e 5 (by omega)]

theorem rowsOfFields_congr (fields fields' : List GoString)
    (h : fields'.take 6 = fields.take 6) : rowsOfFields fields' = rowsOfFields fields := by
  rw [← rowsOfFields_take fields', h, rowsOfFields_take]

theorem Fields_of_TrimSpace_nil (l : GoString) (h : TrimSpace l = []) : Fields l = [] := by
  rw [← Fields_TrimSpace, h]
  rfl

theorem mem_dataRows (ls : List GoString) (row : GoMap) (h : row ∈ (dataRows ls).1) :
    ∃ fields : List GoString, rowsOfFields fields = [row] := by
  induction ls with
  | nil => simp [dataRows] at h
  | cons l ls ih =>
    unfold dataRows at h
    split at h
    · simp at h
    · simp only [List.mem_append] at h
      rcases h with h | h
      · refine ⟨Fields l, ?_⟩
        unfold rowsOfFields at h ⊢
        split at h
        · simp at h
        · rename_i h5
          simp at h
          simp [h5, h]
      · exact ih h

theorem mem_genOfLines (ls : List GoString) (row : GoMap) (h : row ∈ (genOfLines ls).1) :
    ∃ fields : List GoString, rowsOfFields fields = [row] := by
  unfold genOfLines at h
  split at h
  · simp at h
  · split at h
    · simp at h
    · split at h
      · simp at h
      · split at h
        · simp at h
        · exact mem_dataRows _ row h

theorem GoMap.get?_ne_none_iff (m : GoMap) (k : String) : m.get? k ≠ none ↔ k ∈ m.keys := by
  induction m with
  | nil => simp [GoMap.get?, GoMap.keys]
  | cons kv m ih =>
    obtain ⟨k', v'⟩ := kv
    by_cases hk : k' = k
    · simp [GoMap.get?, GoMap.keys, hk]
    · have hk' : ¬ k = k' := fun h => hk h.symm
      simp only [GoMap.keys] at ih
      simp [GoMap.get?, GoMap.keys, hk, hk', ih]

theorem dataRows_tooLong (pre : List GoString) (l : GoString) (rest : List GoString)
    (hpre : ∀ x ∈ pre, len x < MaxScanTokenSize) (hl : MaxScanTokenSize ≤ len l) :
    dataRows (pre ++ l :: rest) = ((dataRows pre).1, some GoError.ErrTooLong) := by
  induction pre with
  | nil => simp [dataRows, hl]
  | cons p pre ih =>
    have hp : ¬ MaxScanTokenSize ≤ len p := by
      have := hpre p (by simp)
      omega
    simp [dataRows, hp, ih (fun x hx => hpre x (List.mem_cons_of_mem _ hx))]

theorem genOfLines_tooLong (pre : List GoString) (l : GoString) (rest : List GoString)
    (hpre : ∀ x ∈ pre, len x < MaxScanTokenSize) (hl : MaxScanTokenSize ≤ len l) :
    genOfLines (pre ++ l :: rest) = ((genOfLines pre).1, some GoError.ErrTooLong) := by
  cases pre with
  | nil => simp [genOfLines, hl]
  | cons p1 pre =>
    have hp1 : ¬ MaxScanTokenSize ≤ len p1 := by
      have := hpre p1 (by simp)
      omega
    cases pre with
    | nil => simp [genOfLines, hp1, hl]
    | cons p2 pre =>
      have hp2 : ¬ MaxScanTokenSize ≤ len p2 := by
        have := hpre p2 (by simp)
        omega
      simp [genOfLines, hp1, hp2,
        dataRows_tooLong pre l rest (fun x hx => hpre x (by simp [hx])) hl]

theorem SnapPackagesGenerate_tooLong (pre : List GoString) (l : GoString)
    (hnl : ∀ x ∈ pre, '\n' ∉ x) (hpre : ∀ x ∈ pre, len x < MaxScanTokenSize)
    (hl : '\n' ∉ l) (hlen : MaxScanTokenSize ≤ len l) :
    (∀ rest : GoString,
      SnapPackagesGenerate (joinLines pre ++ joinLines [l] ++ rest) none =
        ((SnapPackagesGenerate (joinLines pre) none).1, some GoError.ErrTooLong)) ∧
    SnapPackagesGenerate (joinLines pre ++ l) none =
      ((SnapPackagesGenerate (joinLines pre) none).1, some GoError.ErrTooLong) := by
  have hne : l ≠ [] := by
    intro h0
    rw [h0] at hlen
    exact len_nil_lt hlen
  constructor
  · intro rest
    have : joinLines [l] ++ rest = l ++ '\n' :: rest := by simp [joinLines]
    rw [SnapPackagesGenerate_eq, SnapPackagesGenerate_eq, List.append_assoc,
      rawLines_joinLines pre hnl, this, rawLines_line l hl, rawLines_joinLines_all pre hnl,
      genOfLines_tooLong pre l _ hpre hlen]
  · rw [SnapPackagesGenerate_eq, SnapPackagesGenerate_eq, rawLines_joinLines pre hnl,
      rawLines_last l hl hne, rawLines_joinLines_all pre hnl,
      genOfLines_tooLong pre l _ hpre hlen]

theorem TrimSpace_of_all_space (l : GoString) (h : ∀ c ∈ l, IsSpace c = true) :
    TrimSpace l = [] := by
  have : l.dropWhile IsSpace = [] := by
    rw [List.dropWhile_eq_nil_iff]
    exact h
  simp [TrimSpace, this]

theorem TrimSpace_tooLongBlankLine : TrimSpace tooLongBlankLine = [] := by
  apply TrimSpace_of_all_space
  intro c hc
  rw [List.eq_of_mem_replicate hc]
  decide

theorem len_tooLongBlankLine : MaxScanTokenSize ≤ len tooLongBlankLine := by
  unfold tooLongBlankLine
  rw [len_replicate]
  decide

theorem newline_not_mem_tooLongBlankLine : '\n' ∉ tooLongBlankLine := by
  unfold tooLongBlankLine
  intro h
  have := List.eq_of_mem_replicate h
  revert this
  decide

/-! ## The first two lines -/

theorem SnapPackagesGenerate_first_two (p1 p2 q1 q2 rest : GoString) (err : Option GoError)
    (hp1 : '\n' ∉ p1) (hp2 : '\n' ∉ p2) (hq1 : '\n' ∉ q1) (hq2 : '\n' ∉ q2)
    (lp1 : len p1 < MaxScanTokenSize) (lp2 : len p2 < MaxScanTokenSize)
    (lq1 : len q1 < MaxScanTokenSize) (lq2 : len q2 < MaxScanTokenSize) :
    SnapPackagesGenerate (joinLines [p1, p2] ++ rest) err =
      SnapPackagesGenerate (joinLines [q1, q2] ++ rest) err := by
  have np1 : ¬ MaxScanTokenSize ≤ len p1 := by omega
  have np2 : ¬ MaxScanTokenSize ≤ len p2 := by omega
  have nq1 : ¬ MaxScanTokenSize ≤ len q1 := by omega
  have nq2 : ¬ MaxScanTokenSize ≤ len q2 := by omega
  cases err with
  | some e => rfl
  | none =>
    rw [SnapPackagesGenerate_eq, SnapPackagesGenerate_eq,
      rawLines_joinLines [p1, p2] (by simp [hp1, hp2]),
      rawLines_joinLines [q1, q2] (by simp [hq1, hq2])]
    simp [genOfLines, np1, np2, nq1, nq2]

/-! ## The error of the scan -/

theorem dataRows_err (ls : List GoString) :
    (dataRows ls).2 = none ↔ ∀ l ∈ ls, len l < MaxScanTokenSize := by
  induction ls with
  | nil => simp [dataRows]
  | cons l ls ih =>
    by_cases hl : MaxScanTokenSize ≤ len l
    · simp [dataRows, hl]
    · have : len l < MaxScanTokenSize := by omega
      simp [dataRows, hl, ih, this]

theorem genOfLines_err (ls : List GoString) :
    (genOfLines ls).2 = none ↔ ∀ l ∈ ls, len l < MaxScanTokenSize := by
  cases ls with
  | nil => simp [genOfLines]
  | cons p1 rest =>
    by_cases h1 : MaxScanTokenSize ≤ len p1
    · simp [genOfLines, h1]
    · have l1 : len p1 < MaxScanTokenSize := by omega
      cases rest with
      | nil => simp [genOfLines, h1, l1]
      | cons p2 ds =>
        by_cases h2 : MaxScanTokenSize ≤ len p2
        · simp [genOfLines, h1, h2]
        · have l2 : len p2 < MaxScanTokenSize := by omega
          simp [genOfLines, h1, h2, l1, l2, dataRows_err]

theorem dataRows_append (A B : List GoString) (hA : ∀ a ∈ A, len a < MaxScanTokenSize) :
    dataRows (A ++ B) = ((dataRows A).1 ++ (dataRows B).1, (dataRows B).2) := by
  induction A with
  | nil => simp [dataRows]
  | cons a A ih =>
    have ha : ¬ MaxScanTokenSize ≤ len a := by
      have := hA a (by simp)
      omega
    simp [dataRows, ha, ih (fun x hx => hA x (List.mem_cons_of_mem _ hx))]

/-! ## The loop of `main` -/

theorem drop_cons_parts (Args : List GoString) (i : Nat) (b : GoString)
    (rest : List GoString) (h : Args.drop i = b :: rest) :
    Args[i]? = some b ∧ Args.drop (i + 1) = rest := by
  constructor
  · have := List.getElem?_drop Args i 0
    rw [h] at this
    simpa using this.symm
  · rw [← List.tail_drop, h]
    rfl

theorem socketPathLoop_found (Args : List GoString) :
    ∀ (k i : Nat) (rest : List GoString) (sp v a : GoString),
      Args.drop i = rest → Args[i + k]? = some a →
      (a = "-socket".toList ∨ a = "--socket".toList) → Args[i + k + 1]? = some v →
      (∀ (j : Nat) (b : GoString), i ≤ j → j < i + k → Args[j]? = some b →
        ¬ (b = "-socket".toList ∨ b = "--socket".toList)) →
      socketPathLoop Args i rest sp = v := by
  intro k
  induction k with
  | zero =>
    intro i rest sp v a hd ha hf hv _
    have hi : i < Args.length := by
      rw [List.getElem?_eq_some_iff] at ha
      exact ha.1
    rw [List.drop_eq_getElem_cons hi] at hd
    subst hd
    obtain ⟨hv1, hv2⟩ := List.getElem?_eq_some_iff.mp hv
    obtain ⟨_, ha2⟩ := List.getElem?_eq_some_iff.mp ha
    simp only [Nat.add_zero] at ha2 hv1 hv2
    have hc : (Args[i] = "-socket".toList ∨ Args[i] = "--socket".toList) ∧
        i + 1 < Args.length := ⟨by rw [ha2]; exact hf, hv1⟩
    rw [socketPathLoop, dif_pos hc]
    exact hv2
  | succ k ih =>
    intro i rest sp v a hd ha hf hv hnot
    have hi : i < Args.length := by
      have := (List.getElem?_eq_some_iff.mp ha).1
      omega
    rw [List.drop_eq_getElem_cons hi] at hd
    subst hd
    have hn : ¬ ((Args[i] = "-socket".toList ∨ Args[i] = "--socket".toList) ∧
        i + 1 < Args.length) := by
      intro hc
      exact hnot i Args[i] (Nat.le_refl _) (by omega) (List.getElem?_eq_getElem hi) hc.1
    rw [socketPathLoop, dif_neg hn]
    have e1 : i + 1 + k = i + (k + 1) := by omega
    apply ih (i + 1) _ sp v a rfl
    · rw [e1]; exact ha
    · exact hf
    · rw [e1]; exact hv
    · intro j b h1 h2 hb
      exact hnot j b (by omega) (by omega) hb

theorem socketPathLoop_default (Args : List GoString) :
    ∀ (rest : List GoString) (i : Nat) (sp : GoString),
      Args.drop i = rest →
      (∀ (j : Nat) (a : GoString), i ≤ j → Args[j]? = some a →
        (a = "-socket".toList ∨ a = "--socket".toList) → Args[j + 1]? = none) →
      socketPathLoop Args i rest sp = sp := by
  intro rest
  induction rest with
  | nil => intro i sp _ _; rfl
  | cons b rest ih =>
    intro i sp hd hnone
    obtain ⟨hb, hrest⟩ := drop_cons_parts Args i b rest hd
    have hn : ¬ ((b = "-socket".toList ∨ b = "--socket".toList) ∧ i + 1 < Args.length) := by
      intro hc
      have := hnone i b (Nat.le_refl _) hb hc.1
      rw [List.getElem?_eq_none_iff] at this
      omega
    rw [socketPathLoop, dif_neg hn]
    exact ih (i + 1) sp hrest (fun j a hj => hnone j a (by omega))

/-! ## Fields hold no white space -/

theorem fieldsLoop_mem (s : GoString) :
    ∀ o : Option GoString,
      (∀ span, o = some span → span ≠ [] ∧ ∀ c ∈ span, IsSpace c = false) →
      ∀ f ∈ fieldsLoop o s, f ≠ [] ∧ ∀ c ∈ f, IsSpace c = false := by
  induction s with
  | nil =>
    intro o ho f hf
    cases o with
    | none => simp [fieldsLoop] at hf
    | some span =>
      simp [fieldsLoop] at hf
      subst hf
      obtain ⟨h1, h2⟩ := ho span rfl
      exact ⟨by simpa using h1, fun c hc => h2 c (by simpa using hc)⟩
  | cons r s ih =>
    intro o ho f hf
    by_cases hr : IsSpace r = true
    · cases o with
      | none =>
        simp [fieldsLoop, hr] at hf
        exact ih none (by simp) f hf
      | some span =>
        simp [fieldsLoop, hr] at hf
        rcases hf with hf | hf
        · subst hf
          obtain ⟨h1, h2⟩ := ho span rfl
          exact ⟨by simpa using h1, fun c hc => h2 c (by simpa using hc)⟩
        · exact ih none (by simp) f hf
    · have hr' : IsSpace r = false := by simpa using hr
      cases o with
      | none =>
        simp [fieldsLoop, hr'] at hf
        apply ih (some [r]) _ f hf
        intro span hs
        simp at hs
        subst hs
        simp [hr']
      | some span =>
        simp [fieldsLoop, hr'] at hf
        apply ih (some (r :: span)) _ f hf
        intro span' hs
        simp at hs
        subst hs
        obtain ⟨_, h2⟩ := ho span rfl
        refine ⟨by simp, ?_⟩
        intro c hc
        simp at hc
        rcases hc with hc | hc
        · rw [hc]; exact hr'
        · exact h2 c hc

theorem Fields_mem (s f : GoString) (hf : f ∈ Fields s) :
    f ≠ [] ∧ ∀ c ∈ f, IsSpace c = false :=
  fieldsLoop_mem s none (by simp) f hf

theorem mem_dataRows_line (ls : List GoString) (row : GoMap) (h : row ∈ (dataRows ls).1) :
    ∃ l : GoString, rowsOfFields (Fields l) = [row] := by
  induction ls with
  | nil => simp [dataRows] at h
  | cons l ls ih =>
    unfold dataRows at h
    split at h
    · simp at h
    · simp only [List.mem_append] at h
      rcases h with h | h
      · refine ⟨l, ?_⟩
        unfold rowsOfFields at h ⊢
        split at h
        · simp at h
        · rename_i h5
          simp at h
          simp [h5, h]
      · exact ih h

theorem mem_genOfLines_line (ls : List GoString) (row : GoMap)
    (h : row ∈ (genOfLines ls).1) :
    ∃ l : GoString, rowsOfFields (Fields l) = [row] := by
  unfold genOfLines at h
  split at h
  · simp at h
  · split at h
    · simp at h
    · split at h
      · simp at h
      · split at h
        · simp at h
        · exact mem_dataRows_line _ row h

theorem getD_mem_of_lt (fields : List GoString) (i : Nat) (h : i < fields.length) :
    fields.getD i [] ∈ fields := by
  rw [List.getD_eq_getElem?_getD, List.getElem?_eq_getElem h]
  exact List.getElem_mem h

/-! ## The loop body without trimming -/

theorem loopBodyNoTrim_eq (st : LoopState) (text : GoString) :
    loopBodyNoTrim st text = loopBody st text := by
  by_cases h : st.lineCount < 2
  · rw [loopBody_preamble st text h]
    unfold loopBodyNoTrim
    have : st.lineCount + 1 ≤ 2 := by omega
    simp [this]
  · rw [loopBody_data st text (by omega)]
    unfold loopBodyNoTrim rowsOfFields
    have h2 : ¬ st.lineCount + 1 ≤ 2 := by omega
    simp only [h2, if_false]
    by_cases h5 : (Fields text).length < 5
    · simp [h5]
    · simp [h5]

theorem scanLoopNoTrim_eq (raws : List GoString) :
    ∀ st : LoopState, scanLoopNoTrim raws st = scanLoop raws st := by
  induction raws with
  | nil => intro st; rfl
  | cons raw rest ih =>
    intro st
    simp only [scanLoopNoTrim, scanLoop, loopBodyNoTrim_eq, ih]

/-! ## C1 -/

/-- C1, at a concrete input: the output has a first line of 65536 bytes, a
second line and one data line of five fields; the claim promises one row and no
error, the result is no row and the error `ErrTooLong`. -/
theorem C1_counterexample :
    5 ≤ (Fields "a b c d e".toList).length ∧
    SnapPackagesGenerate
      (textOfLines [tooLongLine, "-".toList, "a b c d e".toList] true) none
      = ([], some GoError.ErrTooLong) := by
  refine ⟨by decide, ?_⟩
  rw [SnapPackagesGenerate_eq, rawLines_textOfLines _ _ _ (by simp)]
  · simp [genOfLines, len_tooLongLine]
  · simp [newline_not_mem_tooLongLine]

/-- C1, amended: for every output made of two preamble lines followed by N
data lines, with or without a newline after the last line, in which every line
is shorter than the scanner's limit of 65536 bytes and every data line has at
least 5 white-space-separated fields, `SnapPackagesGenerate` returns exactly N
rows and no error, and the i-th row holds, under name, version, rev, tracking
and publisher, the fields 0, 1, 2, 3 and 4 of the i-th data line. -/
theorem C1_rows_of_data_lines (p1 p2 : GoString) (ds : List GoString) (finalNewline : Bool)
    (hnl : ∀ l ∈ p1 :: p2 :: ds, '\n' ∉ l)
    (hlen : ∀ l ∈ p1 :: p2 :: ds, len l < MaxScanTokenSize)
    (h5 : ∀ d ∈ ds, 5 ≤ (Fields d).length) :
    ∃ rows : List GoMap,
      SnapPackagesGenerate (textOfLines (p1 :: p2 :: ds) finalNewline) none = (rows, none) ∧
      rows.length = ds.length ∧
      ∀ (i : Nat) (d : GoString), ds[i]? = some d →
        ∃ row, rows[i]? = some row ∧
          row.get? "name" = (Fields d)[0]? ∧ row.get? "version" = (Fields d)[1]? ∧
          row.get? "rev" = (Fields d)[2]? ∧ row.get? "tracking" = (Fields d)[3]? ∧
          row.get? "publisher" = (Fields d)[4]? ∧ (Fields d)[4]? ≠ none := by
  have hp1 : ¬ MaxScanTokenSize ≤ len p1 := by
    have := hlen p1 (by simp)
    omega
  have hp2 : ¬ MaxScanTokenSize ≤ len p2 := by
    have := hlen p2 (by simp)
    omega
  obtain ⟨rows, hrows, hl, hi⟩ := dataRows_wellformed ds
    (fun x hx => hlen x (by simp [hx])) h5
  refine ⟨rows, ?_, hl, ?_⟩
  · rw [SnapPackagesGenerate_eq]
    cases ds with
    | nil =>
      simp at hl
      subst hl
      cases finalNewline with
      | true =>
        rw [rawLines_textOfLines _ _ hnl (by simp)]
        simp [genOfLines, hp1, hp2, dataRows]
      | false =>
        simp only [textOfLines, joinLinesOpen, Bool.false_eq_true, if_false]
        rw [rawLines_line p1 (hnl p1 (by simp))]
        cases p2 with
        | nil => simp [rawLines, genOfLines, hp1]
        | cons r s =>
          rw [rawLines_last _ (hnl _ (by simp)) (by simp)]
          simp [genOfLines, hp1, hp2, dataRows]
    | cons d ds' =>
      rw [rawLines_textOfLines _ _ hnl]
      · simp [genOfLines, hp1, hp2, hrows]
      · intro _ l hlast
        rw [List.getLast?_cons_cons, List.getLast?_cons_cons] at hlast
        have hmem : l ∈ d :: ds' := List.mem_of_getLast?_eq_some hlast
        have := h5 l hmem
        intro h0
        rw [h0] at this
        simp [Fields, fieldsLoop] at this
  · intro i d hd
    obtain ⟨row, hr, hrow⟩ := hi i d hd
    have hg := rowsOfFields_get _ row hrow
    have hmem : d ∈ ds := List.getElem?_mem hd
    have h4 : (Fields d)[4]? ≠ none := by
      have := h5 d hmem
      simp
      omega
    exact ⟨row, hr, hg.1, hg.2.1, hg.2.2.1, hg.2.2.2.1, hg.2.2.2.2.1, h4⟩

/-- C1, amended, at a concrete input: the lines `Name`, `--` and `a b c d e`,
each ended by a newline. -/
theorem C1_rows_of_data_lines_witness :
    (∀ l ∈ ["Name".toList, "--".toList, "a b c d e".toList], '\n' ∉ l) ∧
    (∀ l ∈ ["Name".toList, "--".toList, "a b c d e".toList], len l < MaxScanTokenSize) ∧
    (∀ d ∈ ["a b c d e".toList], 5 ≤ (Fields d).length) ∧
    ∃ rows : List GoMap,
      SnapPackagesGenerate
        (textOfLines ["Name".toList, "--".toList, "a b c d e".toList] true) none
        = (rows, none) ∧
      rows.length = ["a b c d e".toList].length ∧
      ∀ (i : Nat) (d : GoString), ["a b c d e".toList][i]? = some d →
        ∃ row, rows[i]? = some row ∧
          row.get? "name" = (Fields d)[0]? ∧ row.get? "version" = (Fields d)[1]? ∧
          row.get? "rev" = (Fields d)[2]? ∧ row.get? "tracking" = (Fields d)[3]? ∧
          row.get? "publisher" = (Fields d)[4]? ∧ (Fields d)[4]? ≠ none :=
  ⟨by decide, by decide, by decide,
    C1_rows_of_data_lines "Name".toList "--".toList ["a b c d e".toList] true
      (by decide) (by decide) (by decide)⟩

/-! ## C2 -/

/-- C2, at a concrete input: the output `h`, `-`, `a b c d e` gives one row;
with its first line replaced by a line of 65536 bytes it gives no row and the
error `ErrTooLong`, so the replacement changed the rows. -/
theorem C2_counterexample :
    (SnapPackagesGenerate
      (joinLines ["h".toList, "-".toList] ++ "a b c d e\n".toList) none).1.length = 1 ∧
    SnapPackagesGenerate
      (joinLines [tooLongLine, "-".toList] ++ "a b c d e\n".toList) none
      = ([], some GoError.ErrTooLong) := by
  refine ⟨by decide, ?_⟩
  rw [SnapPackagesGenerate_eq, rawLines_joinLines _ (by simp [newline_not_mem_tooLongLine])]
  simp [genOfLines, len_tooLongLine]

/-- C2, amended: when the first two lines of the output and the two lines put
in their place are all shorter than the scanner's limit of 65536 bytes, the
replacement leaves the result unchanged, rows and error, whatever follows the
second line (and also when the second line ends the output without a newline);
and when every later line is below the limit too, the rows returned are exactly
the rows of the lines from the third onward, each line giving the rows it gives
after two empty lines. -/
theorem C2_first_two_lines_skipped (p1 p2 q1 q2 : GoString)
    (hnl : ∀ l ∈ [p1, p2, q1, q2], '\n' ∉ l)
    (hlen : ∀ l ∈ [p1, p2, q1, q2], len l < MaxScanTokenSize) :
    (∀ (rest : GoString) (err : Option GoError),
      SnapPackagesGenerate (joinLines [p1, p2] ++ rest) err =
        SnapPackagesGenerate (joinLines [q1, q2] ++ rest) err) ∧
    (∀ err : Option GoError,
      SnapPackagesGenerate (textOfLines [p1, p2] false) err =
        SnapPackagesGenerate (textOfLines [q1, q2] false) err) ∧
    (∀ (ds : List GoString) (finalNewline : Bool),
      (∀ d ∈ ds, '\n' ∉ d) → (∀ d ∈ ds, len d < MaxScanTokenSize) →
      (SnapPackagesGenerate (textOfLines (p1 :: p2 :: ds) finalNewline) none).1 =
        ds.flatMap (fun d => (SnapPackagesGenerate (textOfLines [[], [], d] true) none).1)) := by
  have hp1 : ¬ MaxScanTokenSize ≤ len p1 := by
    have := hlen p1 (by simp)
    omega
  have hp2 : ¬ MaxScanTokenSize ≤ len p2 := by
    have := hlen p2 (by simp)
    omega
  have key : ∀ (rest : GoString) (err : Option GoError),
      SnapPackagesGenerate (joinLines [p1, p2] ++ rest) err =
        SnapPackagesGenerate (joinLines [q1, q2] ++ rest) err := by
    intro rest err
    exact SnapPackagesGenerate_first_two p1 p2 q1 q2 rest err (hnl p1 (by simp))
      (hnl p2 (by simp)) (hnl q1 (by simp)) (hnl q2 (by simp)) (hlen p1 (by simp))
      (hlen p2 (by simp)) (hlen q1 (by simp)) (hlen q2 (by simp))
  refine ⟨key, ?_, ?_⟩
  · intro err
    rw [SnapPackagesGenerate_textOfLines, SnapPackagesGenerate_textOfLines]
    simpa using key [] err
  · intro ds finalNewline hds hdl
    rw [SnapPackagesGenerate_textOfLines,
      SnapPackagesGenerate_lines p1 p2 ds _ (by omega) (by omega), dataRows_within ds hdl]
    · simp only
      apply List.flatMap_congr
      intro d hd
      simp only [textOfLines, if_true]
      rw [SnapPackagesGenerate_single d (hds d hd) (hdl d hd)]
    · intro l hl
      simp at hl
      rcases hl with h | h | h
      · exact hnl l (by simp [h])
      · exact hnl l (by simp [h])
      · exact hds l h

/-- C2, amended, at a concrete input: the first two lines `a b c d e f` and
`1 2 3 4 5`, with `Name` and `--` put in their place, before the data line
`x y z w v`. -/
theorem C2_first_two_lines_skipped_witness :
    (∀ l ∈ ["a b c d e f".toList, "1 2 3 4 5".toList, "Name".toList, "--".toList], '\n' ∉ l) ∧
    (∀ l ∈ ["a b c d e f".toList, "1 2 3 4 5".toList, "Name".toList, "--".toList],
      len l < MaxScanTokenSize) ∧
    SnapPackagesGenerate
      (joinLines ["a b c d e f".toList, "1 2 3 4 5".toList] ++ "x y z w v\n".toList) none =
      SnapPackagesGenerate (joinLines ["Name".toList, "--".toList] ++ "x y z w v\n".toList)
        none ∧
    (SnapPackagesGenerate
      (textOfLines ("a b c d e f".toList :: "1 2 3 4 5".toList :: ["x y z w v".toList]) true)
      none).1 =
      ["x y z w v".toList].flatMap
        (fun d => (SnapPackagesGenerate (textOfLines [[], [], d] true) none).1) :=
  ⟨by decide, by decide,
    (C2_first_two_lines_skipped "a b c d e f".toList "1 2 3 4 5".toList "Name".toList
      "--".toList (by decide) (by decide)).1 "x y z w v\n".toList none,
    (C2_first_two_lines_skipped "a b c d e f".toList "1 2 3 4 5".toList "Name".toList
      "--".toList (by decide) (by decide)).2.2 ["x y z w v".toList] true
      (by decide) (by decide)⟩

/-! ## C3 -/

/-- C3, at a concrete input: a line of 65536 letters has fewer than 5 fields;
the output `h`, `-`, `a b c d e` gives one row and no error; with that line
inserted after the first two lines it gives no row and the error `ErrTooLong`. -/
theorem C3_counterexample :
    (Fields tooLongLine).length < 5 ∧
    SnapPackagesGenerate (joinLines ["h".toList, "-".toList] ++ "a b c d e\n".toList) none
      = ([rowOfStrings "a" "b" "c" "d" "e" ""], none) ∧
    SnapPackagesGenerate
      (joinLines ["h".toList, "-".toList] ++ joinLines [tooLongLine] ++ "a b c d e\n".toList)
      none = ([], some GoError.ErrTooLong) := by
  refine ⟨Fields_tooLongLine, by decide, ?_⟩
  have h := (SnapPackagesGenerate_tooLong ["h".toList, "-".toList] tooLongLine (by decide)
    (by decide) newline_not_mem_tooLongLine len_tooLongLine).1 "a b c d e\n".toList
  rw [h]
  have : (SnapPackagesGenerate (joinLines ["h".toList, "-".toList]) none).1 = [] := by decide
  rw [this]

/-- C3, amended: a line with fewer than 5 white-space-separated fields that is
shorter than the scanner's limit of 65536 bytes, inserted at any position after
the first two lines, or added after the last line of an output of two lines or
more, leaves the result of `SnapPackagesGenerate` unchanged, rows and error. -/
theorem C3_short_line_inserted (l : GoString) (hl : '\n' ∉ l)
    (hlen : len l < MaxScanTokenSize) (hf : (Fields l).length < 5) :
    (∀ (pre : List GoString) (rest : GoString) (err : Option GoError),
      (∀ x ∈ pre, '\n' ∉ x) → 2 ≤ pre.length →
      SnapPackagesGenerate (joinLines pre ++ joinLines [l] ++ rest) err =
        SnapPackagesGenerate (joinLines pre ++ rest) err) ∧
    (∀ (pre : List GoString) (finalNewline finalNewline' : Bool) (err : Option GoError),
      (∀ x ∈ pre, '\n' ∉ x) → 2 ≤ pre.length →
      SnapPackagesGenerate (textOfLines (pre ++ [l]) finalNewline') err =
        SnapPackagesGenerate (textOfLines pre finalNewline) err) := by
  constructor
  · intro pre rest err hpre h2
    exact SnapPackagesGenerate_insert pre l rest err hpre h2 hl hlen hf
  · intro pre finalNewline finalNewline' err hpre h2
    rw [SnapPackagesGenerate_textOfLines, SnapPackagesGenerate_textOfLines, joinLines_append]
    have := SnapPackagesGenerate_insert pre l [] err hpre h2 hl hlen hf
    simpa using this

/-- C3, amended, at a concrete input: the line `only three fields`, inserted
before the data line of the output `h`, `-`, `a b c d e`, and added after it. -/
theorem C3_short_line_inserted_witness :
    '\n' ∉ "only three fields".toList ∧
    len "only three fields".toList < MaxScanTokenSize ∧
    (Fields "only three fields".toList).length < 5 ∧
    SnapPackagesGenerate
      (joinLines ["h".toList, "-".toList] ++ joinLines ["only three fields".toList]
        ++ "a b c d e\n".toList) none =
      SnapPackagesGenerate (joinLines ["h".toList, "-".toList] ++ "a b c d e\n".toList) none ∧
    SnapPackagesGenerate
      (textOfLines (["h".toList, "-".toList, "a b c d e".toList] ++ ["only three fields".toList])
        true) none =
      SnapPackagesGenerate (textOfLines ["h".toList, "-".toList, "a b c d e".toList] false) none :=
  ⟨by decide, by decide, by decide,
    (C3_short_line_inserted "only three fields".toList (by decide) (by decide) (by decide)).1
      ["h".toList, "-".toList] "a b c d e\n".toList none (by decide) (by decide),
    (C3_short_line_inserted "only three fields".toList (by decide) (by decide) (by decide)).2
      ["h".toList, "-".toList, "a b c d e".toList] false true none (by decide) (by decide)⟩

/-! ## C4 -/

/-- C4: a data line with 6 or more white-space-separated fields gives a row
whose notes is the field of index 5, and every line with the same first six
fields gives the same row: in the loop body, for every line scanned after the
first two, and in the result for an output of two preamble lines and that
line. -/
theorem C4_notes_is_sixth_field (text : GoString) (h6 : 6 ≤ (Fields text).length) :
    ∃ row : GoMap,
      row.get? "notes" = (Fields text)[5]? ∧ (Fields text)[5]? ≠ none ∧
      ∀ text' : GoString, (Fields text').take 6 = (Fields text).take 6 →
        (∀ st : LoopState, 2 ≤ st.lineCount →
          (loopBody st text').results = st.results ++ [row]) ∧
        (∀ (p1 p2 : GoString) (finalNewline : Bool),
          (∀ l ∈ [p1, p2, text'], '\n' ∉ l) → (∀ l ∈ [p1, p2, text'], len l < MaxScanTokenSize) →
          SnapPackagesGenerate (textOfLines [p1, p2, text'] finalNewline) none
            = ([row], none)) := by
  obtain ⟨row, hrow⟩ := rowsOfFields_length (Fields text) (by omega)
  have hg := rowsOfFields_get _ row hrow
  refine ⟨row, ?_, ?_, ?_⟩
  · rw [hg.2.2.2.2.2.1, List.getD_eq_getElem?_getD]
    have : 5 < (Fields text).length := by omega
    simp [List.getElem?_eq_getElem this]
  · simp
    omega
  · intro text' ht
    have hr' : rowsOfFields (Fields text') = [row] := by
      rw [rowsOfFields_congr _ _ ht, hrow]
    constructor
    · intro st hst
      rw [loopBody_data st text' hst, hr']
    · intro p1 p2 finalNewline hnl hlen
      have hl : ¬ MaxScanTokenSize ≤ len text' := by
        have := hlen text' (by simp)
        omega
      rw [SnapPackagesGenerate_textOfLines,
        SnapPackagesGenerate_lines p1 p2 [text'] hnl (hlen p1 (by simp)) (hlen p2 (by simp))]
      simp [dataRows, hl, hr']

/-- C4, at a concrete input: the line `a b c d e f g h`, of eight fields, and
the line `a b c d e f`, equal to it on the first six, after the lines `h` and
`-`: both give the row whose notes is `f`. -/
theorem C4_notes_is_sixth_field_witness :
    6 ≤ (Fields "a b c d e f g h".toList).length ∧
    ∃ row : GoMap,
      row.get? "notes" = some "f".toList ∧
      (loopBody { lineCount := 2, results := [] } "a b c d e f g h".toList).results = [row] ∧
      (loopBody { lineCount := 2, results := [] } "a b c d e f".toList).results = [row] ∧
      SnapPackagesGenerate
        (textOfLines ["h".toList, "-".toList, "a b c d e f g h".toList] true) none
        = ([row], none) ∧
      SnapPackagesGenerate
        (textOfLines ["h".toList, "-".toList, "a b c d e f".toList] true) none
        = ([row], none) := by
  obtain ⟨row, h1, _, h3⟩ := C4_notes_is_sixth_field "a b c d e f g h".toList (by decide)
  exact ⟨by decide, row, h1,
    (h3 "a b c d e f g h".toList rfl).1 { lineCount := 2, results := [] } (by decide),
    (h3 "a b c d e f".toList (by decide)).1 { lineCount := 2, results := [] } (by decide),
    (h3 "a b c d e f g h".toList rfl).2 "h".toList "-".toList true (by decide) (by decide),
    (h3 "a b c d e f".toList (by decide)).2 "h".toList "-".toList true (by decide)
      (by decide)⟩

/-! ## C5 -/

/-- C5: a data line with exactly 5 white-space-separated fields gives a row in
which the key notes is present with the empty string as its value: in the loop
body, for every line scanned after the first two, and in the result for an
output of two preamble lines and that line. -/
theorem C5_notes_empty (text : GoString) (h5 : (Fields text).length = 5) :
    ∃ row : GoMap,
      row.get? "notes" = some [] ∧ "notes" ∈ row.keys ∧
      (∀ st : LoopState, 2 ≤ st.lineCount →
        (loopBody st text).results = st.results ++ [row]) ∧
      (∀ (p1 p2 : GoString) (finalNewline : Bool),
        (∀ l ∈ [p1, p2, text], '\n' ∉ l) → (∀ l ∈ [p1, p2, text], len l < MaxScanTokenSize) →
        SnapPackagesGenerate (textOfLines [p1, p2, text] finalNewline) none
          = ([row], none)) := by
  obtain ⟨row, hrow⟩ := rowsOfFields_length (Fields text) (by omega)
  have hg := rowsOfFields_get _ row hrow
  refine ⟨row, ?_, ?_, ?_, ?_⟩
  · rw [hg.2.2.2.2.2.1, List.getD_eq_getElem?_getD, List.getElem?_eq_none (by omega)]
    rfl
  · rw [hg.2.2.2.2.2.2]
    simp
  · intro st hst
    rw [loopBody_data st text hst, hrow]
  · intro p1 p2 finalNewline hnl hlen
    have hl : ¬ MaxScanTokenSize ≤ len text := by
      have := hlen text (by simp)
      omega
    rw [SnapPackagesGenerate_textOfLines,
      SnapPackagesGenerate_lines p1 p2 [text] hnl (hlen p1 (by simp)) (hlen p2 (by simp))]
    simp [dataRows, hl, hrow]

/-- C5, at a concrete input: the line `a b c d e`, after the lines `h` and
`-`. -/
theorem C5_notes_empty_witness :
    (Fields "a b c d e".toList).length = 5 ∧
    ∃ row : GoMap,
      row.get? "notes" = some [] ∧ "notes" ∈ row.keys ∧
      (loopBody { lineCount := 2, results := [] } "a b c d e".toList).results = [row] ∧
      SnapPackagesGenerate (textOfLines ["h".toList, "-".toList, "a b c d e".toList] true) none
        = ([row], none) := by
  obtain ⟨row, h1, h2, h3, h4⟩ := C5_notes_empty "a b c d e".toList (by decide)
  exact ⟨by decide, row, h1, h2, h3 { lineCount := 2, results := [] } (by decide),
    h4 "h".toList "-".toList true (by decide) (by decide)⟩

/-! ## C6 -/

/-- C6, at a concrete input: the output `h`, `-`, `a b c d e` followed by a
line of 65536 bytes; the scanner fails with `ErrTooLong` and the row of the
data line scanned before the failure is returned with the error, where the
claim says that no row is returned. -/
theorem C6_counterexample :
    SnapPackagesGenerate
      (joinLines ["h".toList, "-".toList, "a b c d e".toList] ++ tooLongLine) none
      = ([rowOfStrings "a" "b" "c" "d" "e" ""], some GoError.ErrTooLong) := by
  have h := (SnapPackagesGenerate_tooLong ["h".toList, "-".toList, "a b c d e".toList]
    tooLongLine (by decide) (by decide) newline_not_mem_tooLongLine len_tooLongLine).2
  rw [h]
  have : (SnapPackagesGenerate (joinLines ["h".toList, "-".toList, "a b c d e".toList]) none).1
      = [rowOfStrings "a" "b" "c" "d" "e" ""] := by decide
  rw [this]

/-- C6, amended: when a line of the output has 65536 bytes or more and the
lines before it are shorter, `SnapPackagesGenerate` returns the error
`ErrTooLong` together with the rows of the lines before that line, which are
the rows it returns for the output cut before that line; what follows the line
has no effect. -/
theorem C6_rows_returned_with_error (pre : List GoString) (l : GoString)
    (hnl : ∀ x ∈ pre, '\n' ∉ x) (hpre : ∀ x ∈ pre, len x < MaxScanTokenSize)
    (hl : '\n' ∉ l) (hlen : MaxScanTokenSize ≤ len l) :
    (∀ rest : GoString,
      SnapPackagesGenerate (joinLines pre ++ joinLines [l] ++ rest) none =
        ((SnapPackagesGenerate (joinLines pre) none).1, some GoError.ErrTooLong)) ∧
    SnapPackagesGenerate (joinLines pre ++ l) none =
      ((SnapPackagesGenerate (joinLines pre) none).1, some GoError.ErrTooLong) ∧
    (SnapPackagesGenerate (joinLines pre) none).2 = none :=
  ⟨(SnapPackagesGenerate_tooLong pre l hnl hpre hl hlen).1,
    (SnapPackagesGenerate_tooLong pre l hnl hpre hl hlen).2, by
      rw [SnapPackagesGenerate_eq, rawLines_joinLines_all pre hnl]
      cases pre with
      | nil => rfl
      | cons p1 pre =>
        have hp1 : ¬ MaxScanTokenSize ≤ len p1 := by
          have := hpre p1 (by simp)
          omega
        cases pre with
        | nil => simp [genOfLines, hp1]
        | cons p2 pre =>
          have hp2 : ¬ MaxScanTokenSize ≤ len p2 := by
            have := hpre p2 (by simp)
            omega
          simp [genOfLines, hp1, hp2, dataRows_within pre (fun x hx => hpre x (by simp [hx]))]⟩

/-- C6, amended, at a concrete input: the lines `h`, `-`, `a b c d e f`, then a
line of 65536 bytes, then the line `1 2 3 4 5`. -/
theorem C6_rows_returned_with_error_witness :
    (∀ x ∈ ["h".toList, "-".toList, "a b c d e f".toList], '\n' ∉ x) ∧
    (∀ x ∈ ["h".toList, "-".toList, "a b c d e f".toList], len x < MaxScanTokenSize) ∧
    '\n' ∉ tooLongLine ∧ MaxScanTokenSize ≤ len tooLongLine ∧
    SnapPackagesGenerate
      (joinLines ["h".toList, "-".toList, "a b c d e f".toList] ++ joinLines [tooLongLine]
        ++ "1 2 3 4 5\n".toList) none =
      ((SnapPackagesGenerate (joinLines ["h".toList, "-".toList, "a b c d e f".toList]) none).1,
        some GoError.ErrTooLong) ∧
    (SnapPackagesGenerate (joinLines ["h".toList, "-".toList, "a b c d e f".toList]) none).1
      = [rowOfStrings "a" "b" "c" "d" "e" "f"] :=
  ⟨by decide, by decide, newline_not_mem_tooLongLine, len_tooLongLine,
    (C6_rows_returned_with_error ["h".toList, "-".toList, "a b c d e f".toList] tooLongLine
      (by decide) (by decide) newline_not_mem_tooLongLine len_tooLongLine).1
      "1 2 3 4 5\n".toList,
    by decide⟩

/-! ## C7 -/

/-- C7: when `cmd.Output()` returns an error, `SnapPackagesGenerate` returns
that error with zero rows, whatever output was captured: the output is not
parsed. -/
theorem C7_execution_error (output : GoString) (e : GoError) :
    SnapPackagesGenerate output (some e) = ([], some e) :=
  rfl

/-! ## C8 -/

/-- C8, at concrete inputs. An empty line inserted before the first line of
the scenario input: the separator line, now third, is read as a data line and
gives a row before the two rows of the scenario. A line of 65536 spaces, empty
after trimming, inserted after the first two lines of the scenario input: no
row is returned and the error is `ErrTooLong`. -/
theorem C8_counterexample :
    TrimSpace [] = [] ∧
    SnapPackagesGenerate (joinLines scenarioLines) none
      = ([rowOfStrings "core20" "20230101" "1234" "latest/stable" "canonical**" "base",
          rowOfStrings "hello" "2.10" "50" "latest/stable" "canonical" "-"], none) ∧
    SnapPackagesGenerate (joinLines [[]] ++ joinLines scenarioLines) none
      = ([rowOfStrings "----" "-------" "---" "--------" "---------" "-----",
          rowOfStrings "core20" "20230101" "1234" "latest/stable" "canonical**" "base",
          rowOfStrings "hello" "2.10" "50" "latest/stable" "canonical" "-"], none) ∧
    TrimSpace tooLongBlankLine = [] ∧
    SnapPackagesGenerate
      (joinLines (scenarioLines.take 2) ++ joinLines [tooLongBlankLine]
        ++ joinLines (scenarioLines.drop 2)) none
      = ([], some GoError.ErrTooLong) := by
  refine ⟨by decide, by decide, by decide, TrimSpace_tooLongBlankLine, ?_⟩
  have h := (SnapPackagesGenerate_tooLong (scenarioLines.take 2) tooLongBlankLine (by decide)
    (by decide) newline_not_mem_tooLongBlankLine len_tooLongBlankLine).1
    (joinLines (scenarioLines.drop 2))
  rw [h]
  have : (SnapPackagesGenerate (joinLines (scenarioLines.take 2)) none).1 = [] := by decide
  rw [this]

/-- C8, amended: a line that is empty after trimming white space and shorter
than the scanner's limit of 65536 bytes, inserted at any position after the
first two lines, or added after the last line of an output of two lines or
more, leaves the result of `SnapPackagesGenerate` unchanged, rows and error.
Inserted before or between the first two lines of an output whose first line is
also shorter than 65536 bytes, it is one of the two lines that are skipped,
with the first line, and the line that was second is processed as the third
line: the result is the one for the output in which that line comes third,
after two empty lines. -/
theorem C8_blank_line_inserted (l : GoString) (hl : '\n' ∉ l)
    (hlen : len l < MaxScanTokenSize) (hblank : TrimSpace l = []) :
    (∀ (pre : List GoString) (rest : GoString) (err : Option GoError),
      (∀ x ∈ pre, '\n' ∉ x) → 2 ≤ pre.length →
      SnapPackagesGenerate (joinLines pre ++ joinLines [l] ++ rest) err =
        SnapPackagesGenerate (joinLines pre ++ rest) err) ∧
    (∀ (pre : List GoString) (finalNewline finalNewline' : Bool) (err : Option GoError),
      (∀ x ∈ pre, '\n' ∉ x) → 2 ≤ pre.length →
      SnapPackagesGenerate (textOfLines (pre ++ [l]) finalNewline') err =
        SnapPackagesGenerate (textOfLines pre finalNewline) err) ∧
    (∀ (p1 p2 rest : GoString) (err : Option GoError),
      '\n' ∉ p1 → len p1 < MaxScanTokenSize →
      SnapPackagesGenerate (joinLines [l] ++ joinLines [p1, p2] ++ rest) err =
        SnapPackagesGenerate (joinLines [[], [], p2] ++ rest) err ∧
      SnapPackagesGenerate (joinLines [p1] ++ joinLines [l] ++ joinLines [p2] ++ rest) err =
        SnapPackagesGenerate (joinLines [[], [], p2] ++ rest) err) := by
  have hf : (Fields l).length < 5 := by
    rw [Fields_of_TrimSpace_nil l hblank]
    decide
  refine ⟨?_, ?_, ?_⟩
  · intro pre rest err hpre h2
    exact SnapPackagesGenerate_insert pre l rest err hpre h2 hl hlen hf
  · intro pre finalNewline finalNewline' err hpre h2
    rw [SnapPackagesGenerate_textOfLines, SnapPackagesGenerate_textOfLines, joinLines_append]
    have := SnapPackagesGenerate_insert pre l [] err hpre h2 hl hlen hf
    simpa using this
  · intro p1 p2 rest err hp1 lp1
    have e0 : ∀ a b : GoString, joinLines [a, b, p2] ++ rest
        = joinLines [a, b] ++ (joinLines [p2] ++ rest) := by
      intro a b
      simp [joinLines]
    have e1 : joinLines [l] ++ joinLines [p1, p2] ++ rest
        = joinLines [l, p1] ++ (joinLines [p2] ++ rest) := by
      simp [joinLines]
    have e2 : joinLines [p1] ++ joinLines [l] ++ joinLines [p2] ++ rest
        = joinLines [p1, l] ++ (joinLines [p2] ++ rest) := by
      simp [joinLines]
    have h0 : '\n' ∉ ([] : GoString) := by simp
    rw [e0, e1, e2]
    exact ⟨SnapPackagesGenerate_first_two l p1 [] [] _ err hl hp1 h0 h0 hlen lp1
        (by decide) (by decide),
      SnapPackagesGenerate_first_two p1 l [] [] _ err hp1 hl h0 h0 lp1 hlen
        (by decide) (by decide)⟩

/-- C8, amended, at a concrete input: a line of a space, a tab and a carriage
return, inserted between the two data lines of the scenario input, and before
the scenario input. -/
theorem C8_blank_line_inserted_witness :
    '\n' ∉ " \t\r".toList ∧ len " \t\r".toList < MaxScanTokenSize ∧
    TrimSpace " \t\r".toList = [] ∧
    SnapPackagesGenerate
      (joinLines (scenarioLines.take 3) ++ joinLines [" \t\r".toList]
        ++ joinLines (scenarioLines.drop 3)) none =
      SnapPackagesGenerate
        (joinLines (scenarioLines.take 3) ++ joinLines (scenarioLines.drop 3)) none ∧
    SnapPackagesGenerate
      (joinLines [" \t\r".toList] ++ joinLines ["Name".toList, "- - - - - -".toList]
        ++ "a b c d e\n".toList) none =
      SnapPackagesGenerate
        (joinLines [[], [], "- - - - - -".toList] ++ "a b c d e\n".toList) none :=
  ⟨by decide, by decide, by decide,
    (C8_blank_line_inserted " \t\r".toList (by decide) (by decide) (by decide)).1
      (scenarioLines.take 3) (joinLines (scenarioLines.drop 3)) none (by decide) (by decide),
    ((C8_blank_line_inserted " \t\r".toList (by decide) (by decide) (by decide)).2.2
      "Name".toList "- - - - - -".toList "a b c d e\n".toList none (by decide)
      (by decide)).1⟩

/-! ## C9 -/

/-- C9: for every output and every result of the command, every row returned
by `SnapPackagesGenerate` has exactly the keys name, version, rev, tracking,
publisher and notes, each one present and no other; these are the names of the
columns that `SnapPackagesColumns` declares, which are six columns of type
text, in that order. -/
theorem C9_row_keys_are_columns (output : GoString) (err : Option GoError) :
    (∀ row ∈ (SnapPackagesGenerate output err).1,
      row.keys = ["name", "version", "rev", "tracking", "publisher", "notes"] ∧
      row.keys = SnapPackagesColumns.map ColumnDefinition.Name ∧
      ∀ k : String, row.get? k ≠ none ↔
        k ∈ ["name", "version", "rev", "tracking", "publisher", "notes"]) ∧
    SnapPackagesColumns =
      [ { Name := "name", Type_ := ColumnType.Text },
        { Name := "version", Type_ := ColumnType.Text },
        { Name := "rev", Type_ := ColumnType.Text },
        { Name := "tracking", Type_ := ColumnType.Text },
        { Name := "publisher", Type_ := ColumnType.Text },
        { Name := "notes", Type_ := ColumnType.Text } ] := by
  refine ⟨?_, rfl⟩
  intro row hrow
  have hk : row.keys = ["name", "version", "rev", "tracking", "publisher", "notes"] := by
    cases err with
    | some e => simp [SnapPackagesGenerate_err] at hrow
    | none =>
      rw [SnapPackagesGenerate_eq] at hrow
      obtain ⟨fields, hf⟩ := mem_genOfLines _ row hrow
      exact (rowsOfFields_get fields row hf).2.2.2.2.2.2
  refine ⟨hk, ?_, ?_⟩
  · rw [hk]
    rfl
  · intro k
    rw [GoMap.get?_ne_none_iff, hk]

/-! ## C10 -/

/-- C10: on the scenario input of the specification, with or without a newline
after its last line, `SnapPackagesGenerate` returns no error and exactly the
two rows of `core20` and `hello`, in this order. -/
theorem C10_scenario :
    textOfLines scenarioLines true =
      ("Name  Version  Rev  Tracking  Publisher  Notes\n" ++
        "----  -------  ---  --------  ---------  -----\n" ++
        "core20  20230101  1234  latest/stable  canonical**  base\n" ++
        "hello   2.10      50    latest/stable  canonical    -\n").toList ∧
    ∀ finalNewline : Bool,
      SnapPackagesGenerate (textOfLines scenarioLines finalNewline) none
        = ([rowOfStrings "core20" "20230101" "1234" "latest/stable" "canonical**" "base",
            rowOfStrings "hello" "2.10" "50" "latest/stable" "canonical" "-"], none) := by
  refine ⟨rfl, ?_⟩
  intro finalNewline
  cases finalNewline <;> decide

/-! ## C11 -/

/-- C11: when the command succeeded and every line of the output is within the
scanner's limit (shorter than 65536 bytes), which is exactly when the scanner
reports no failure, `SnapPackagesGenerate` returns a nil error whatever the
lines contain; and an output of two preamble lines and one data line of 4
fields, all within the limit, gives zero rows and no error. -/
theorem C11_malformed_lines_give_no_error :
    (∀ output : GoString, (∀ l ∈ rawLines output, len l < MaxScanTokenSize) →
      (SnapPackagesGenerate output none).2 = none) ∧
    (∀ (ls : List GoString) (finalNewline : Bool),
      (∀ l ∈ ls, '\n' ∉ l) → (∀ l ∈ ls, len l < MaxScanTokenSize) →
      (SnapPackagesGenerate (textOfLines ls finalNewline) none).2 = none) ∧
    (∀ output : GoString, (SnapPackagesGenerate output none).2 = none →
      ∀ l ∈ rawLines output, len l < MaxScanTokenSize) ∧
    (∀ (p1 p2 d : GoString) (finalNewline : Bool),
      (∀ l ∈ [p1, p2, d], '\n' ∉ l) → (∀ l ∈ [p1, p2, d], len l < MaxScanTokenSize) →
      (Fields d).length = 4 →
      SnapPackagesGenerate (textOfLines [p1, p2, d] finalNewline) none = ([], none)) := by
  refine ⟨?_, ?_, ?_, ?_⟩
  · intro output h
    rw [SnapPackagesGenerate_eq, genOfLines_err]
    exact h
  · intro ls finalNewline hnl hlen
    rw [SnapPackagesGenerate_textOfLines, SnapPackagesGenerate_eq,
      rawLines_joinLines_all ls hnl, genOfLines_err]
    exact hlen
  · intro output h
    rw [SnapPackagesGenerate_eq, genOfLines_err] at h
    exact h
  · intro p1 p2 d finalNewline hnl hlen h4
    have hd : ¬ MaxScanTokenSize ≤ len d := by
      have := hlen d (by simp)
      omega
    rw [SnapPackagesGenerate_textOfLines,
      SnapPackagesGenerate_lines p1 p2 [d] hnl (hlen p1 (by simp)) (hlen p2 (by simp))]
    simp [dataRows, hd, rowsOfFields, h4]

/-- C11, at concrete inputs: the output `Name Version`, `---`,
`only four fields here`, whose lines are within the limit and which gives no
error; and the scenario header and separator followed by the line
`core20  20230101  1234  latest/stable`, of 4 fields, which gives zero rows and
no error. -/
theorem C11_malformed_lines_give_no_error_witness :
    (∀ l ∈ rawLines ("Name Version\n---\nonly four fields here\n".toList),
      len l < MaxScanTokenSize) ∧
    (SnapPackagesGenerate ("Name Version\n---\nonly four fields here\n".toList) none).2
      = none ∧
    (∀ l ∈ (scenarioLines.take 2 ++ ["core20  20230101  1234  latest/stable".toList]),
      '\n' ∉ l) ∧
    (∀ l ∈ (scenarioLines.take 2 ++ ["core20  20230101  1234  latest/stable".toList]),
      len l < MaxScanTokenSize) ∧
    (Fields "core20  20230101  1234  latest/stable".toList).length = 4 ∧
    SnapPackagesGenerate
      (textOfLines (scenarioLines.take 2 ++ ["core20  20230101  1234  latest/stable".toList])
        true) none = ([], none) :=
  ⟨by decide,
    C11_malformed_lines_give_no_error.1 ("Name Version\n---\nonly four fields here\n".toList)
      (by decide),
    by decide, by decide, by decide,
    C11_malformed_lines_give_no_error.2.2.2 _ _ "core20  20230101  1234  latest/stable".toList
      true (by decide) (by decide) (by decide)⟩

/-! ## C12 -/

/-- C12, at a concrete input: the preamble `h`, `-`, the sequence A made of one
line of 65536 bytes and the sequence B made of the line `a b c d e`; the output
preamble+A+B gives no row, the output preamble+B gives one row, so the rows of
preamble+A followed by those of preamble+B are not the rows of
preamble+A+B. -/
theorem C12_counterexample :
    SnapPackagesGenerate
      (joinLines (["h".toList, "-".toList] ++ [tooLongLine] ++ ["a b c d e".toList])) none
      = ([], some GoError.ErrTooLong) ∧
    (SnapPackagesGenerate (joinLines (["h".toList, "-".toList] ++ [tooLongLine])) none).1
      ++ (SnapPackagesGenerate (joinLines (["h".toList, "-".toList] ++ ["a b c d e".toList]))
        none).1
      = [rowOfStrings "a" "b" "c" "d" "e" ""] := by
  have hP : (SnapPackagesGenerate (joinLines ["h".toList, "-".toList]) none).1 = [] := by
    decide
  have h := SnapPackagesGenerate_tooLong ["h".toList, "-".toList] tooLongLine (by decide)
    (by decide) newline_not_mem_tooLongLine len_tooLongLine
  constructor
  · have e : joinLines (["h".toList, "-".toList] ++ [tooLongLine] ++ ["a b c d e".toList])
        = joinLines ["h".toList, "-".toList] ++ joinLines [tooLongLine]
          ++ joinLines ["a b c d e".toList] := by
      rw [joinLines_append, joinLines_append]
    rw [e, h.1, hP]
  · have e : joinLines (["h".toList, "-".toList] ++ [tooLongLine])
        = joinLines ["h".toList, "-".toList] ++ joinLines [tooLongLine] ++ [] := by
      rw [joinLines_append, List.append_nil]
    rw [e, h.1, hP]
    decide

/-- C12, amended: for every preamble of two lines and every two sequences of
data lines A and B, the lines of A being shorter than the scanner's limit of
65536 bytes, the rows that `SnapPackagesGenerate` returns for preamble+A+B are
the rows for preamble+A followed by the rows for preamble+B, with or without a
newline after the last line of each output. -/
theorem C12_rows_concatenate (p1 p2 : GoString) (A B : List GoString)
    (hnl : ∀ l ∈ p1 :: p2 :: (A ++ B), '\n' ∉ l)
    (hA : ∀ a ∈ A, len a < MaxScanTokenSize) (n n' n'' : Bool) :
    (SnapPackagesGenerate (textOfLines (p1 :: p2 :: (A ++ B)) n) none).1 =
      (SnapPackagesGenerate (textOfLines (p1 :: p2 :: A) n') none).1 ++
        (SnapPackagesGenerate (textOfLines (p1 :: p2 :: B) n'') none).1 := by
  have hnA : ∀ l ∈ p1 :: p2 :: A, '\n' ∉ l := by
    intro l hl
    apply hnl
    simp at hl ⊢
    tauto
  have hnB : ∀ l ∈ p1 :: p2 :: B, '\n' ∉ l := by
    intro l hl
    apply hnl
    simp at hl ⊢
    tauto
  rw [SnapPackagesGenerate_textOfLines, SnapPackagesGenerate_textOfLines,
    SnapPackagesGenerate_textOfLines, SnapPackagesGenerate_eq, SnapPackagesGenerate_eq,
    SnapPackagesGenerate_eq, rawLines_joinLines_all _ hnl, rawLines_joinLines_all _ hnA,
    rawLines_joinLines_all _ hnB]
  by_cases h1 : MaxScanTokenSize ≤ len p1
  · simp [genOfLines, h1]
  · by_cases h2 : MaxScanTokenSize ≤ len p2
    · simp [genOfLines, h1, h2]
    · simp [genOfLines, h1, h2, dataRows_append A B hA]

/-- C12, amended, at a concrete input: the preamble `h`, `-`, the sequence A of
the lines `a b c d e` and `bad line`, and the sequence B of the line
`1 2 3 4 5 6`. -/
theorem C12_rows_concatenate_witness :
    (∀ l ∈ "h".toList :: "-".toList ::
        (["a b c d e".toList, "bad line".toList] ++ ["1 2 3 4 5 6".toList]), '\n' ∉ l) ∧
    (∀ a ∈ ["a b c d e".toList, "bad line".toList], len a < MaxScanTokenSize) ∧
    (SnapPackagesGenerate (textOfLines ("h".toList :: "-".toList ::
        (["a b c d e".toList, "bad line".toList] ++ ["1 2 3 4 5 6".toList])) true) none).1 =
      (SnapPackagesGenerate (textOfLines ("h".toList :: "-".toList ::
        ["a b c d e".toList, "bad line".toList]) true) none).1 ++
      (SnapPackagesGenerate (textOfLines ("h".toList :: "-".toList ::
        ["1 2 3 4 5 6".toList]) true) none).1 ∧
    (SnapPackagesGenerate (textOfLines ("h".toList :: "-".toList ::
        (["a b c d e".toList, "bad line".toList] ++ ["1 2 3 4 5 6".toList])) true) none).1 =
      [rowOfStrings "a" "b" "c" "d" "e" "", rowOfStrings "1" "2" "3" "4" "5" "6"] :=
  ⟨by decide, by decide,
    C12_rows_concatenate "h".toList "-".toList ["a b c d e".toList, "bad line".toList]
      ["1 2 3 4 5 6".toList] (by decide) (by decide) true true true,
    by decide⟩

/-! ## C13 -/

/-- C13: the socket path that `main` computes from the argument list is the
argument after the first occurrence of `-socket` or `--socket` that has a
following argument, and is the default `:0` when no argument equal to
`-socket` or `--socket` is followed by another argument. -/
theorem C13_socket_path (Args : List GoString) :
    (∀ (i : Nat) (v : GoString),
      (Args[i]? = some "-socket".toList ∨ Args[i]? = some "--socket".toList) →
      Args[i + 1]? = some v →
      (∀ j : Nat, j < i →
        ¬ ((Args[j]? = some "-socket".toList ∨ Args[j]? = some "--socket".toList) ∧
          Args[j + 1]? ≠ none)) →
      socketPath Args = v) ∧
    ((∀ i : Nat, (Args[i]? = some "-socket".toList ∨ Args[i]? = some "--socket".toList) →
        Args[i + 1]? = none) →
      socketPath Args = ":0".toList) := by
  constructor
  · intro i v hflag hv hfirst
    have hi1 : i + 1 < Args.length := (List.getElem?_eq_some_iff.mp hv).1
    have ha : Args[0 + i]? = some Args[i] := by
      rw [Nat.zero_add]
      exact List.getElem?_eq_getElem (by omega)
    have hf : Args[i] = "-socket".toList ∨ Args[i] = "--socket".toList := by
      rw [List.getElem?_eq_getElem (show i < Args.length by omega)] at hflag
      simpa using hflag
    apply socketPathLoop_found Args i 0 Args _ v Args[i] rfl ha hf
    · rw [Nat.zero_add]; exact hv
    · intro j b _ hj hb hfb
      rw [Nat.zero_add] at hj
      apply hfirst j hj
      constructor
      · rw [hb]
        rcases hfb with h | h
        · left; rw [h]
        · right; rw [h]
      · rw [Ne, List.getElem?_eq_none_iff]
        omega
  · intro hnone
    apply socketPathLoop_default Args Args 0 _ rfl
    intro j a _ ha hfa
    apply hnone j
    rw [ha]
    rcases hfa with h | h
    · left; rw [h]
    · right; rw [h]

/-- C13, at concrete argument lists: `prog -v --socket /run/osq.em -socket /x`,
where the path is `/run/osq.em`, and `prog --verbose -socket`, where the flag
is the last argument and the path is the default. -/
theorem C13_socket_path_witness :
    socketPath ["prog".toList, "-v".toList, "--socket".toList, "/run/osq.em".toList,
      "-socket".toList, "/x".toList] = "/run/osq.em".toList ∧
    socketPath ["prog".toList, "--verbose".toList, "-socket".toList] = ":0".toList :=
  ⟨(C13_socket_path ["prog".toList, "-v".toList, "--socket".toList, "/run/osq.em".toList,
      "-socket".toList, "/x".toList]).1 2 "/run/osq.em".toList (by decide) (by decide)
      (by decide),
    (C13_socket_path ["prog".toList, "--verbose".toList, "-socket".toList]).2 (by
      intro i h
      match i with
      | 0 => revert h; decide
      | 1 => revert h; decide
      | 2 => rfl
      | n + 3 => rfl)⟩

/-! ## C14 -/

/-- C14: for every output and every result of the command, in every row that
`SnapPackagesGenerate` returns the values of name, version, rev, tracking and
publisher are non-empty and hold no white-space character, and the value of
notes holds no white-space character. -/
theorem C14_values_without_white_space (output : GoString) (err : Option GoError) :
    ∀ row ∈ (SnapPackagesGenerate output err).1,
      (∀ k ∈ ["name", "version", "rev", "tracking", "publisher"],
        ∃ v : GoString, row.get? k = some v ∧ v ≠ [] ∧ ∀ c ∈ v, IsSpace c = false) ∧
      (∃ v : GoString, row.get? "notes" = some v ∧ ∀ c ∈ v, IsSpace c = false) := by
  intro row hrow
  cases err with
  | some e => simp [SnapPackagesGenerate_err] at hrow
  | none =>
    rw [SnapPackagesGenerate_eq] at hrow
    obtain ⟨l, hl⟩ := mem_genOfLines_line _ row hrow
    have h5 : ¬ (Fields l).length < 5 := by
      intro h
      simp [rowsOfFields, h] at hl
    have hrow' := hl
    rw [rowsOfFields_eq, if_neg h5] at hrow'
    have hr : row = [("name", (Fields l).getD 0 []), ("version", (Fields l).getD 1 []),
        ("rev", (Fields l).getD 2 []), ("tracking", (Fields l).getD 3 []),
        ("publisher", (Fields l).getD 4 []), ("notes", (Fields l).getD 5 [])] := by
      simpa using hrow'.symm
    have ok : ∀ i : Nat, i < 5 →
        (Fields l).getD i [] ≠ [] ∧ ∀ c ∈ (Fields l).getD i [], IsSpace c = false :=
      fun i hi => Fields_mem l _ (getD_mem_of_lt _ i (by omega))
    constructor
    · intro k hk
      simp only [List.mem_cons, List.mem_singleton, List.not_mem_nil, or_false] at hk
      rcases hk with h | h | h | h | h <;> subst h
      · exact ⟨_, by rw [hr]; simp [GoMap.get?], ok 0 (by omega)⟩
      · exact ⟨_, by rw [hr]; simp [GoMap.get?], ok 1 (by omega)⟩
      · exact ⟨_, by rw [hr]; simp [GoMap.get?], ok 2 (by omega)⟩
      · exact ⟨_, by rw [hr]; simp [GoMap.get?], ok 3 (by omega)⟩
      · exact ⟨_, by rw [hr]; simp [GoMap.get?], ok 4 (by omega)⟩
    · refine ⟨(Fields l).getD 5 [], by rw [hr]; simp [GoMap.get?], ?_⟩
      by_cases h6 : 5 < (Fields l).length
      · exact (Fields_mem l _ (getD_mem_of_lt _ 5 h6)).2
      · rw [List.getD_eq_getElem?_getD, List.getElem?_eq_none (by omega)]
        simp

/-- C14, at a concrete input: the row of `core20` in the result for the
scenario input. -/
theorem C14_values_without_white_space_witness :
    rowOfStrings "core20" "20230101" "1234" "latest/stable" "canonical**" "base"
      ∈ (SnapPackagesGenerate (joinLines scenarioLines) none).1 ∧
    (∀ k ∈ ["name", "version", "rev", "tracking", "publisher"],
      ∃ v : GoString,
        (rowOfStrings "core20" "20230101" "1234" "latest/stable" "canonical**" "base").get? k
          = some v ∧ v ≠ [] ∧ ∀ c ∈ v, IsSpace c = false) ∧
    (∃ v : GoString,
      (rowOfStrings "core20" "20230101" "1234" "latest/stable" "canonical**" "base").get?
        "notes" = some v ∧ ∀ c ∈ v, IsSpace c = false) :=
  ⟨by decide,
    C14_values_without_white_space (joinLines scenarioLines) none
      (rowOfStrings "core20" "20230101" "1234" "latest/stable" "canonical**" "base")
      (by decide)⟩

/-! ## C15 -/

/-- C15: the parser obtained from `SnapPackagesGenerate` by taking out
`strings.TrimSpace` and the skip of the lines that are empty after trimming
returns the same result, rows and error, for every output and every result of
the command; for splitting a line into fields gives the same fields with or
without the surrounding white space, and a line that is empty after trimming
has no field. -/
theorem C15_trimming_is_redundant :
    (∀ (output : GoString) (err : Option GoError),
      SnapPackagesGenerateNoTrim output err = SnapPackagesGenerate output err) ∧
    (∀ (st : LoopState) (text : GoString), loopBodyNoTrim st text = loopBody st text) ∧
    (∀ s : GoString, Fields (TrimSpace s) = Fields s) ∧
    (∀ s : GoString, TrimSpace s = [] → (Fields s).length = 0) := by
  refine ⟨?_, loopBodyNoTrim_eq, Fields_TrimSpace, ?_⟩
  · intro output err
    cases err with
    | some e => rfl
    | none =>
      unfold SnapPackagesGenerateNoTrim SnapPackagesGenerate
      simp only [scanLoopNoTrim_eq]
  · intro s hs
    rw [Fields_of_TrimSpace_nil s hs]
    rfl

end SnapPackages
